import Mathlib

/-!
# Cypher query builder (`cypher-query-builder/clause.go`)

A shallow embedding of the `QueryBuilder` of `clause.go` and the properties of
its clause methods.

Conventions of the embedding.

* A Go `string` is a `GoString`, the list of its Unicode characters (the text is
  taken to be valid UTF-8).  Byte offsets and byte lengths, where the source
  uses them (`Call`), are computed from `Char.utf8Size`.
* A Go `error` is a `GoError`, identified by the text of its `Error()` method; an
  absent (`nil`) error is `none`.
* A method with receiver `qb *QueryBuilder` is a function that takes the builder
  state and returns the new state (together with the returned value, if any, in
  front of it).  `Call` takes two distinct builders and returns both;
  `Store.Call` is `Call` on pointers into a memory of builders, where the nested
  builder may be the outer one.
* `CallLoopBytes` is the loop of `Call` on the bytes of a text that need not be
  valid UTF-8, with Go's rune decoding and `WriteRune`; on the bytes of a
  `GoString` it agrees with `CallLoop` (`CallLoopBytes_utf8`).
* The render collaborators (`ToString`, `ToCypher`, `PartialRelationshipBuild`,
  `RelationshipBuild`) are declared outside `clause.go`.  The builder keeps a
  ghost log `calls` of every collaborator call it makes, in call order.
-/

namespace Cypher

/-- Go `string`: the sequence of the characters of the text -/
abbrev GoString := List Char

/-- Go `error`, identified by what `Error()` returns -/
structure GoError where
  Error : GoString
deriving DecidableEq, Repr

/-- Result of a render collaborator: `(text, error)` -/
abbrev Render := GoString × Option GoError

/-- Go `errors.New` -/
def errorsNew (text : GoString) : GoError := ⟨text⟩

/-- Go `strings.HasSuffix` -/
def HasSuffix (s suffix : GoString) : Bool :=
  suffix.length ≤ s.length && s.drop (s.length - suffix.length) == suffix

/-- Go `strings.TrimSuffix`: `s` without the trailing `suffix`, or `s` itself when
`s` does not end with `suffix` -/
def TrimSuffix (s suffix : GoString) : GoString :=
  if HasSuffix s suffix then s.take (s.length - suffix.length) else s

/-- Go `len(s)` of a string: its length in bytes -/
def len (s : GoString) : Nat := (s.map Char.utf8Size).sum

/-- Go `strconv.Itoa`, and `%v` of an `int`: decimal text -/
def Itoa (n : Int) : GoString :=
  if n < 0 then '-' :: Nat.toDigits 10 n.natAbs else Nat.toDigits 10 n.natAbs

/-- Modelled from the spec: the clause content types `RemoveConfig`,
`ConditionalConfig`, `ReturnConfig`, `WithConfig` and `OrderByConfig` (all used
through the interface `QueryConfig`) are declared outside `clause.go`.  A value
is given by whether it equals the zero value of its type and by what its
`ToString()` returns; `val` stands for the remaining content. -/
structure QueryConfig where
  isZero : Bool
  ToString : Render
  val : Nat := 0
deriving DecidableEq, Repr

abbrev RemoveConfig := QueryConfig
abbrev ConditionalConfig := QueryConfig
abbrev ReturnConfig := QueryConfig
abbrev WithConfig := QueryConfig
abbrev OrderByConfig := QueryConfig

/-- Modelled from the spec: the bare-node variant `OnlyNode` is declared outside
`clause.go`.  `isZero` is `== (OnlyNode{})`, `ToCypher` is what
`.Node.ToCypher()` returns. -/
structure OnlyNode where
  isZero : Bool
  ToCypher : Render
  val : Nat := 0
deriving DecidableEq, Repr

/-- Modelled from the spec: the partial-relationship variant, declared outside
`clause.go`.  `isZero` is `== (PartialRelationship{})`. -/
structure PartialRelationship where
  isZero : Bool
  val : Nat := 0
deriving DecidableEq, Repr

/-- Modelled from the spec: the full-relationship variant, declared outside
`clause.go`.  `isZero` is `== (FullRelationship{})`. -/
structure FullRelationship where
  isZero : Bool
  val : Nat := 0
deriving DecidableEq, Repr

/-- Modelled from the spec: the `Edge` of a pattern, declared outside
`clause.go`, with its two render methods. -/
structure Edge where
  PartialRelationshipBuild : PartialRelationship → Render
  RelationshipBuild : FullRelationship → Render

/-- Modelled from the spec: the pattern description `QueryPattern`, declared
outside `clause.go`; these are the fields `queryPatternMap` reads. -/
structure QueryPattern where
  OnlyNode : OnlyNode
  PartialRelationship : PartialRelationship
  FullRelationship : FullRelationship
  Edge : Edge

/-- One call of a render collaborator -/
inductive RenderCall where
  | ToString (clause : QueryConfig)
  | ToCypher (node : OnlyNode)
  | PartialRelationshipBuild (p : PartialRelationship)
  | RelationshipBuild (f : FullRelationship)
deriving DecidableEq, Repr

/-- The Go struct `QueryBuilder` (`query`, `errors`), with the ghost log `calls` -/
structure QueryBuilder where
  query : GoString
  errors : List GoError
  calls : List RenderCall := []
deriving DecidableEq, Repr

/-- `NewQueryBuilder()` -/
def NewQueryBuilder : QueryBuilder := { query := [], errors := [] }

namespace QueryBuilder

/-- Ghost step: the builder calls a render collaborator -/
def render (qb : QueryBuilder) (c : RenderCall) : QueryBuilder :=
  { qb with calls := qb.calls ++ [c] }

/-- `func (q *QueryBuilder) addError(e error)` -/
def addError (q : QueryBuilder) (e : GoError) : QueryBuilder :=
  match q.errors with
  | [] => { q with errors := [e] }
  | _ :: _ => { q with errors := q.errors ++ [e] }

/-- The recurring `if err != nil { qb.addError(err) }` -/
def addErrorIfAny (qb : QueryBuilder) (err : Option GoError) : QueryBuilder :=
  match err with
  | some e => qb.addError e
  | none => qb

/-- The loop of `mapConfigToString`, from the local `query` and the builder -/
def mapConfigToStringLoop : List QueryConfig → GoString → QueryBuilder → GoString × QueryBuilder
  | [], query, qb => (query, qb)
  | clause :: rest, query, qb =>
    let r := clause.ToString
    let qb := qb.render (.ToString clause)
    let qb := qb.addErrorIfAny r.2
    mapConfigToStringLoop rest (query ++ r.1) qb

/-- `func (qb *QueryBuilder) mapConfigToString(clauses ...QueryConfig) string` -/
def mapConfigToString (qb : QueryBuilder) (clauses : List QueryConfig) : GoString × QueryBuilder :=
  mapConfigToStringLoop clauses [] qb

/-- `func (qb *QueryBuilder) queryPatternMap(pattern QueryPattern) string` -/
def queryPatternMap (qb : QueryBuilder) (pattern : QueryPattern) : GoString × QueryBuilder :=
  if !pattern.OnlyNode.isZero then
    let r := pattern.OnlyNode.ToCypher
    let qb := qb.render (.ToCypher pattern.OnlyNode)
    let qb := qb.addErrorIfAny r.2
    (r.1, qb)
  else if !pattern.PartialRelationship.isZero then
    let p := pattern.PartialRelationship
    let r := pattern.Edge.PartialRelationshipBuild p
    let qb := qb.render (.PartialRelationshipBuild p)
    let qb := qb.addErrorIfAny r.2
    (r.1, qb)
  else if !pattern.FullRelationship.isZero then
    let f := pattern.FullRelationship
    let r := pattern.Edge.RelationshipBuild f
    let qb := qb.render (.RelationshipBuild f)
    let qb := qb.addErrorIfAny r.2
    (r.1, qb)
  else
    let qb := qb.addError (errorsNew "error match QueryPattern null".toList)
    ([], qb)

/-- The loop of `queryPatternUsage` over the patterns -/
def queryPatternUsageLoop : List QueryPattern → GoString → QueryBuilder → GoString × QueryBuilder
  | [], query, qb => (query, qb)
  | pattern :: rest, query, qb =>
    let r := qb.queryPatternMap pattern
    queryPatternUsageLoop rest (query ++ r.1) r.2

/-- `func (qb *QueryBuilder) queryPatternUsage(clause string, patterns ...QueryPattern) string` -/
def queryPatternUsage (qb : QueryBuilder) (clause : GoString) (patterns : List QueryPattern) :
    GoString × QueryBuilder :=
  if patterns.length = 0 then
    let error := "error ".toList ++ clause ++ " patterns null".toList
    let qb := qb.addError (errorsNew error)
    ([], qb)
  else
    let query := clause ++ " ".toList
    let r := queryPatternUsageLoop patterns query qb
    let query := r.1 ++ "\n".toList
    (query, r.2)

/-- The statement `qb.query += s` -/
def appendQuery (qb : QueryBuilder) (s : GoString) : QueryBuilder :=
  { qb with query := qb.query ++ s }

/-- `func (qb *QueryBuilder) Match(patterns ...QueryPattern) *QueryBuilder` -/
def Match (qb : QueryBuilder) (patterns : List QueryPattern) : QueryBuilder :=
  let r := qb.queryPatternUsage "MATCH".toList patterns
  r.2.appendQuery r.1

/-- `func (qb *QueryBuilder) OptionlMath(patterns ...QueryPattern) *QueryBuilder` -/
def OptionlMath (qb : QueryBuilder) (patterns : List QueryPattern) : QueryBuilder :=
  let r := qb.queryPatternUsage "OPTIONAL MATCH".toList patterns
  r.2.appendQuery r.1

/-- `func (qb *QueryBuilder) Merge(patterns ...QueryPattern) *QueryBuilder` -/
def Merge (qb : QueryBuilder) (patterns : List QueryPattern) : QueryBuilder :=
  let r := qb.queryPatternUsage "MERGE".toList patterns
  r.2.appendQuery r.1

/-- `func (qb *QueryBuilder) Create(patterns ...QueryPattern) *QueryBuilder` -/
def Create (qb : QueryBuilder) (patterns : List QueryPattern) : QueryBuilder :=
  let r := qb.queryPatternUsage "CREATE".toList patterns
  r.2.appendQuery r.1

/-- `func (qb *QueryBuilder) Delete(detachDelete bool, deleteClause RemoveConfig) *QueryBuilder` -/
def Delete (qb : QueryBuilder) (detachDelete : Bool) (deleteClause : RemoveConfig) : QueryBuilder :=
  if deleteClause.isZero then
    qb.addError (errorsNew "error empty Delete clause".toList)
  else
    let qb := if detachDelete then qb.appendQuery "DETACH DELETE ".toList
      else qb.appendQuery "DELETE ".toList
    let r := qb.mapConfigToString [deleteClause]
    let qb := r.2.appendQuery r.1
    qb.appendQuery "\n".toList

/-- The loop of `Where` over the conditions -/
def WhereLoop : List ConditionalConfig → QueryBuilder → QueryBuilder
  | [], qb => qb
  | clause :: rest, qb =>
    let r := qb.mapConfigToString [clause]
    WhereLoop rest (r.2.appendQuery r.1)

/-- `func (qb *QueryBuilder) Where(whereClauses ...ConditionalConfig) *QueryBuilder` -/
def Where (qb : QueryBuilder) (whereClauses : List ConditionalConfig) : QueryBuilder :=
  if whereClauses.length = 0 then
    qb.addError (errorsNew "error empty Where clause".toList)
  else
    let qb := qb.appendQuery "WHERE ".toList
    let qb := WhereLoop whereClauses qb
    qb.appendQuery "\n".toList

/-- The loop shared in shape by `Return` and `With`: every item is rendered and
followed by `", "` in the local `query` -/
def itemsLoop : List QueryConfig → GoString → QueryBuilder → GoString × QueryBuilder
  | [], query, qb => (query, qb)
  | clause :: rest, query, qb =>
    let r := qb.mapConfigToString [clause]
    let query := query ++ r.1
    let query := query ++ ", ".toList
    itemsLoop rest query r.2

/-- `func (qb *QueryBuilder) Return(returnClauses ...ReturnConfig) *QueryBuilder` -/
def Return (qb : QueryBuilder) (returnClauses : List ReturnConfig) : QueryBuilder :=
  if returnClauses.length = 0 then
    qb.addError (errorsNew "error empty Return clause".toList)
  else
    let query := "RETURN ".toList
    let r := itemsLoop returnClauses query qb
    let query := TrimSuffix r.1 ", ".toList
    let query := query ++ "\n".toList
    r.2.appendQuery query

/-- `func (qb *QueryBuilder) Remove(removeClauses RemoveConfig) *QueryBuilder` -/
def Remove (qb : QueryBuilder) (removeClauses : RemoveConfig) : QueryBuilder :=
  if removeClauses.isZero then
    qb.addError (errorsNew "error empty where clause".toList)
  else
    let query := "REMOVE ".toList
    let r := qb.mapConfigToString [removeClauses]
    let query := query ++ r.1
    let query := TrimSuffix query ", ".toList
    let query := query ++ "\n".toList
    r.2.appendQuery query

/-- `func (qb *QueryBuilder) Union(all bool) *QueryBuilder` -/
def Union (qb : QueryBuilder) (all : Bool) : QueryBuilder :=
  if all then qb.appendQuery "UNION ALL\n".toList
  else qb.appendQuery "UNION\n".toList

/-- `func (qb *QueryBuilder) With(withClauses ...WithConfig) *QueryBuilder` -/
def With (qb : QueryBuilder) (withClauses : List WithConfig) : QueryBuilder :=
  if withClauses.length = 0 then
    qb.addError (errorsNew "error empty WITH clause".toList)
  else
    let query := "WITH ".toList
    let r := itemsLoop withClauses query qb
    let query := TrimSuffix r.1 ", ".toList
    let query := query ++ "\n".toList
    r.2.appendQuery query

/-- `func (qb *QueryBuilder) OrderBy(orderByClause OrderByConfig) *QueryBuilder` -/
def OrderBy (qb : QueryBuilder) (orderByClause : OrderByConfig) : QueryBuilder :=
  if orderByClause.isZero then
    qb.addError (errorsNew "error empty OrderBy clause".toList)
  else
    let qb := qb.appendQuery "ORDER BY ".toList
    let r := qb.mapConfigToString [orderByClause]
    let qb := r.2.appendQuery r.1
    qb.appendQuery "\n".toList

/-- `func (qb *QueryBuilder) Limit(limit int) *QueryBuilder` -/
def Limit (qb : QueryBuilder) (limit : Int) : QueryBuilder :=
  qb.appendQuery ("LIMIT ".toList ++ Itoa limit ++ "\n".toList)

/-- The loop of `errorBuild`: `str += err.Error() + ";"` -/
def errorBuildLoop : List GoError → GoString → GoString
  | [], str => str
  | err :: rest, str => errorBuildLoop rest (str ++ (err.Error ++ ";".toList))

/-- `func (qb *QueryBuilder) errorBuild() error` -/
def errorBuild (qb : QueryBuilder) : Option GoError :=
  if qb.errors.length > 0 then
    let str := "errors found: ".toList
    let str := errorBuildLoop qb.errors str
    let str := TrimSuffix str ";".toList ++
      (" -- total errors (".toList ++ Itoa qb.errors.length ++ ")".toList)
    some (errorsNew str)
  else
    none

/-- `func (qb *QueryBuilder) Execute() (string, error)`: the returned pair, and
the builder after the call -/
def Execute (qb : QueryBuilder) : (GoString × Option GoError) × QueryBuilder :=
  let qb := { qb with query := TrimSuffix qb.query "\n".toList }
  ((qb.query, qb.errorBuild), qb)

/-- The loop `for i, rune := range subquery` of `Call`, on a text that is valid
UTF-8: `i` is the byte offset of the rune, `n` is `len(subquery)`, `buffer` is
the `bytes.Buffer`.  `CallLoopBytes` is the same loop on arbitrary bytes. -/
def CallLoop (n : Nat) : List Char → Nat → GoString → GoString
  | [], _, buffer => buffer
  | rune :: rest, i, buffer =>
    let buffer := buffer ++ [rune]
    let buffer :=
      if rune = '\n' then
        if (i : Int) ≠ (n : Int) - 1 then (buffer ++ [' ']) ++ [' '] else buffer
      else buffer
    CallLoop n rest (i + rune.utf8Size) buffer

/-- `func (qb *QueryBuilder) Call(nqb *QueryBuilder) *QueryBuilder`, for a nested
builder `nqb` that is not `qb` itself: the outer builder and the nested builder
after the call.  `Store.Call` is the method on pointers, where `nqb` may be `qb`. -/
def Call (qb nqb : QueryBuilder) : QueryBuilder × QueryBuilder :=
  let res := "CALL \x7b\n".toList
  let e := nqb.Execute
  let subquery := e.1.1
  let qb := qb.addErrorIfAny e.1.2
  let buffer := CallLoop (len subquery) subquery 0 []
  let subquery := buffer
  let res := res ++ ("  ".toList ++ subquery ++ "\n\x7d\n".toList)
  (qb.appendQuery res, e.2)

end QueryBuilder

/-! ## `Call` on pointers, and its loop on bytes -/

/-- A `*QueryBuilder`: the address of a builder -/
abbrev Ptr := Nat

/-- The builders in memory: what each pointer points to -/
abbrev Store := Ptr → QueryBuilder

namespace Store

/-- The builder at `p` becomes `v` -/
def set (s : Store) (p : Ptr) (v : QueryBuilder) : Store :=
  fun q => if q = p then v else s q

/-- `func (qb *QueryBuilder) Call(nqb *QueryBuilder) *QueryBuilder` on pointers:
`qb` and `nqb` may be the same builder.  `nqb.Execute()` stores the trimmed text
in the builder at `nqb`, then the builder at `qb` records the error and gets the
block appended. -/
def Call (s : Store) (qb nqb : Ptr) : Store :=
  let res := "CALL \x7b\n".toList
  let e := (s nqb).Execute
  let s := s.set nqb e.2
  let subquery := e.1.1
  let s := s.set qb ((s qb).addErrorIfAny e.1.2)
  let buffer := QueryBuilder.CallLoop (len subquery) subquery 0 []
  let subquery := buffer
  let res := res ++ ("  ".toList ++ subquery ++ "\n\x7d\n".toList)
  s.set qb ((s qb).appendQuery res)

end Store

/-- Go `utf8.RuneError`, U+FFFD -/
def RuneError : Nat := 0xFFFD

/-- Go `utf8.AppendRune` (what `bytes.Buffer.WriteRune` writes): the UTF-8 bytes
of the rune `r`, and those of `RuneError` when `r` is a surrogate or above
U+10FFFF -/
def EncodeRune (r : Nat) : List Nat :=
  if r ≤ 0x7F then [r]
  else if r ≤ 0x7FF then [0xC0 + r / 64, 0x80 + r % 64]
  else if 0x10FFFF < r ∨ (0xD800 ≤ r ∧ r ≤ 0xDFFF) then [0xEF, 0xBF, 0xBD]
  else if r ≤ 0xFFFF then [0xE0 + r / 4096, 0x80 + r / 64 % 64, 0x80 + r % 64]
  else [0xF0 + r / 262144, 0x80 + r / 4096 % 64, 0x80 + r / 64 % 64, 0x80 + r % 64]

/-- Go `utf8.DecodeRuneInString`, which `range` over a string applies at each
position: the rune at the head of the bytes and its width; `(RuneError, 1)` when
the bytes do not start with a valid UTF-8 encoding -/
def DecodeRune : List Nat → Nat × Nat
  | [] => (RuneError, 0)
  | s0 :: rest =>
    if s0 < 0x80 then (s0, 1)
    else if s0 < 0xC2 then (RuneError, 1)
    else if s0 < 0xE0 then
      match rest with
      | s1 :: _ =>
        if s1 < 0x80 ∨ 0xBF < s1 then (RuneError, 1)
        else (s0 % 32 * 64 + s1 % 64, 2)
      | [] => (RuneError, 1)
    else if s0 < 0xF0 then
      match rest with
      | s1 :: s2 :: _ =>
        if s1 < (if s0 = 0xE0 then 0xA0 else 0x80) ∨ (if s0 = 0xED then 0x9F else 0xBF) < s1 then
          (RuneError, 1)
        else if s2 < 0x80 ∨ 0xBF < s2 then (RuneError, 1)
        else (s0 % 16 * 4096 + s1 % 64 * 64 + s2 % 64, 3)
      | _ => (RuneError, 1)
    else if s0 < 0xF5 then
      match rest with
      | s1 :: s2 :: s3 :: _ =>
        if s1 < (if s0 = 0xF0 then 0x90 else 0x80) ∨ (if s0 = 0xF4 then 0x8F else 0xBF) < s1 then
          (RuneError, 1)
        else if s2 < 0x80 ∨ 0xBF < s2 then (RuneError, 1)
        else if s3 < 0x80 ∨ 0xBF < s3 then (RuneError, 1)
        else (s0 % 8 * 262144 + s1 % 64 * 4096 + s2 % 64 * 64 + s3 % 64, 4)
      | _ => (RuneError, 1)
    else (RuneError, 1)

/-- The bytes of a text: its UTF-8 encoding -/
def utf8 (t : GoString) : List Nat := t.flatMap fun c => EncodeRune c.toNat

/-- The loop `for i, rune := range subquery` of `Call` on the bytes of `subquery`,
valid UTF-8 or not: at byte offset `i` a rune is decoded, `buffer.WriteRune`
writes it, and two spaces follow a newline that is not the last byte; `skip` is
the number of bytes left of the rune being stepped over, `n` is
`len(subquery)` -/
def CallLoopBytes (n : Nat) : List Nat → Nat → Nat → List Nat → List Nat
  | [], _, _, buffer => buffer
  | _ :: rest, skip + 1, i, buffer => CallLoopBytes n rest skip (i + 1) buffer
  | s0 :: rest, 0, i, buffer =>
    let r := DecodeRune (s0 :: rest)
    let buffer := buffer ++ EncodeRune r.1
    let buffer :=
      if r.1 = 0x0A then
        if (i : Int) ≠ (n : Int) - 1 then (buffer ++ [0x20]) ++ [0x20] else buffer
      else buffer
    CallLoopBytes n rest (r.2 - 1) (i + 1) buffer

/-! ## Statement vocabulary -/

/-- The pattern has a populated variant whose render succeeds with text `t`: the
variant that resolution selects (the first populated one in the order bare
node, partial relationship, full relationship) returns `t` and no error -/
def ValidPattern (p : QueryPattern) (t : GoString) : Prop :=
  (p.OnlyNode.isZero = false ∧ p.OnlyNode.ToCypher = (t, none)) ∨
  (p.OnlyNode.isZero = true ∧ p.PartialRelationship.isZero = false ∧
    p.Edge.PartialRelationshipBuild p.PartialRelationship = (t, none)) ∨
  (p.OnlyNode.isZero = true ∧ p.PartialRelationship.isZero = true ∧
    p.FullRelationship.isZero = false ∧
    p.Edge.RelationshipBuild p.FullRelationship = (t, none))

instance (p : QueryPattern) (t : GoString) : Decidable (ValidPattern p t) := by
  unfold ValidPattern
  infer_instance

/-- The errors a render result records: its error, if it has one -/
def renderErrors (r : Render) : List GoError := r.2.toList

/-- What resolving a pattern on the empty builder gives: the text, the recorded
errors and the collaborator calls of `queryPatternMap` -/
def resolved (p : QueryPattern) : GoString × QueryBuilder :=
  NewQueryBuilder.queryPatternMap p

/-- The concatenation of the texts of the successful renders only: what the
composer would return if a failing render contributed the empty string -/
def successfulTexts (clauses : List QueryConfig) : GoString :=
  (clauses.map fun c => if c.ToString.2 = none then c.ToString.1 else []).flatten

/-- The concatenation of the texts of all the renders, failing ones included -/
def allTexts (clauses : List QueryConfig) : GoString :=
  (clauses.map fun c => c.ToString.1).flatten

/-- The render result of the variant that resolution selects: the first
populated one in the order bare node, partial relationship, full relationship;
`none` when no variant is populated -/
def selected (p : QueryPattern) : Option Render :=
  if p.OnlyNode.isZero = false then some p.OnlyNode.ToCypher
  else if p.PartialRelationship.isZero = false then
    some (p.Edge.PartialRelationshipBuild p.PartialRelationship)
  else if p.FullRelationship.isZero = false then
    some (p.Edge.RelationshipBuild p.FullRelationship)
  else none

/-- The resolved text of a pattern: the text of the selected variant, and the
empty text when no variant is populated -/
def patternText (p : QueryPattern) : GoString :=
  match selected p with
  | some r => r.1
  | none => []

/-- The error a pattern stands for: the render error of the selected variant, if
it has one, and the empty-pattern error when no variant is populated -/
def patternError (p : QueryPattern) : Option GoError :=
  match selected p with
  | some r => r.2
  | none => some (errorsNew "error match QueryPattern null".toList)

/-- An invalid pattern: no variant is populated, or the render of the selected
variant fails -/
def InvalidPattern (p : QueryPattern) : Bool :=
  match selected p with
  | some r => r.2.isSome
  | none => true

/-- The text of the composite error built from the descriptions `e1 .. en` -/
def compositeText (errs : List GoError) : GoString :=
  "errors found: ".toList ++ ";".toList.intercalate (errs.map fun e => e.Error) ++
    " -- total errors (".toList ++ (Nat.repr errs.length).toList ++ ")".toList

/-- A clause call in a chain, with arguments that may fail its guard: the
MATCH-class methods, `Where`, `Return` and `With` with no argument, and
`Delete`, `Remove` and `OrderBy` with a description -/
inductive GuardCall where
  | Match
  | OptionlMath
  | Merge
  | Create
  | Where
  | Return
  | With
  | Delete (detachDelete : Bool) (deleteClause : RemoveConfig)
  | Remove (removeClauses : RemoveConfig)
  | OrderBy (orderByClause : OrderByConfig)
deriving DecidableEq, Repr

namespace GuardCall

/-- The call fails its guard: always for the calls with no argument, and when the
description is the zero value for the other three -/
def fails : GuardCall → Bool
  | Delete _ c => c.isZero
  | Remove c => c.isZero
  | OrderBy c => c.isZero
  | _ => true

/-- The call, made on the builder -/
def run (qb : QueryBuilder) : GuardCall → QueryBuilder
  | Match => qb.Match []
  | OptionlMath => qb.OptionlMath []
  | Merge => qb.Merge []
  | Create => qb.Create []
  | Where => qb.Where []
  | Return => qb.Return []
  | With => qb.With []
  | Delete d c => qb.Delete d c
  | Remove c => qb.Remove c
  | OrderBy c => qb.OrderBy c

/-- The message the guard of the call records in `clause.go` -/
def message : GuardCall → GoString
  | Match => "error MATCH patterns null".toList
  | OptionlMath => "error OPTIONAL MATCH patterns null".toList
  | Merge => "error MERGE patterns null".toList
  | Create => "error CREATE patterns null".toList
  | Where => "error empty Where clause".toList
  | Return => "error empty Return clause".toList
  | With => "error empty WITH clause".toList
  | Delete _ _ => "error empty Delete clause".toList
  | Remove _ => "error empty where clause".toList
  | OrderBy _ => "error empty OrderBy clause".toList

end GuardCall

/-- The chain of calls `c1, c2, ..` made in this order on the builder -/
def runChain (qb : QueryBuilder) (chain : List GuardCall) : QueryBuilder :=
  chain.foldl GuardCall.run qb

/-- The text contains no line terminator -/
def NoNewline (t : GoString) : Prop := '\n' ∉ t

instance (t : GoString) : Decidable (NoNewline t) := by
  unfold NoNewline
  infer_instance

/-- The builder states reachable from `NewQueryBuilder()` by the public
operations, when no render collaborator returns a text with a line terminator:
every clause object given to a method renders a text without one, and so does
the selected variant of every pattern.  `Call` takes a nested builder reachable
the same way, and leaves both builders in reachable states. -/
inductive Reachable : QueryBuilder → Prop where
  | new : Reachable NewQueryBuilder
  | Match {qb : QueryBuilder} (ps : List QueryPattern) :
      Reachable qb → (∀ p ∈ ps, NoNewline (patternText p)) → Reachable (qb.Match ps)
  | OptionlMath {qb : QueryBuilder} (ps : List QueryPattern) :
      Reachable qb → (∀ p ∈ ps, NoNewline (patternText p)) → Reachable (qb.OptionlMath ps)
  | Merge {qb : QueryBuilder} (ps : List QueryPattern) :
      Reachable qb → (∀ p ∈ ps, NoNewline (patternText p)) → Reachable (qb.Merge ps)
  | Create {qb : QueryBuilder} (ps : List QueryPattern) :
      Reachable qb → (∀ p ∈ ps, NoNewline (patternText p)) → Reachable (qb.Create ps)
  | Delete {qb : QueryBuilder} (detachDelete : Bool) (c : RemoveConfig) :
      Reachable qb → NoNewline c.ToString.1 → Reachable (qb.Delete detachDelete c)
  | Where {qb : QueryBuilder} (cs : List ConditionalConfig) :
      Reachable qb → (∀ c ∈ cs, NoNewline c.ToString.1) → Reachable (qb.Where cs)
  | Return {qb : QueryBuilder} (cs : List ReturnConfig) :
      Reachable qb → (∀ c ∈ cs, NoNewline c.ToString.1) → Reachable (qb.Return cs)
  | Remove {qb : QueryBuilder} (c : RemoveConfig) :
      Reachable qb → NoNewline c.ToString.1 → Reachable (qb.Remove c)
  | Union {qb : QueryBuilder} (all : Bool) : Reachable qb → Reachable (qb.Union all)
  | With {qb : QueryBuilder} (cs : List WithConfig) :
      Reachable qb → (∀ c ∈ cs, NoNewline c.ToString.1) → Reachable (qb.With cs)
  | OrderBy {qb : QueryBuilder} (c : OrderByConfig) :
      Reachable qb → NoNewline c.ToString.1 → Reachable (qb.OrderBy c)
  | Limit {qb : QueryBuilder} (limit : Int) : Reachable qb → Reachable (qb.Limit limit)
  | CallOuter {qb nqb : QueryBuilder} :
      Reachable qb → Reachable nqb → Reachable (qb.Call nqb).1
  | CallNested {qb nqb : QueryBuilder} :
      Reachable qb → Reachable nqb → Reachable (qb.Call nqb).2
  | Execute {qb : QueryBuilder} : Reachable qb → Reachable qb.Execute.2

/-- Lower-case form of a text, for comparison without regard to letter case -/
def lower (t : GoString) : GoString := t.map Char.toLower

/-- The text `t` contains `name`, compared without regard to letter case -/
def containsFold (t name : GoString) : Bool :=
  decide (lower name <:+: lower t)

/-- The names of the six clauses whose guard records a fixed error -/
def guardedClauses : List GoString :=
  ["Delete".toList, "Where".toList, "Return".toList, "Remove".toList, "With".toList,
    "OrderBy".toList]

/-- The names among the six guarded clauses that the text contains, compared
without regard to letter case -/
def clausesNamed (t : GoString) : List GoString :=
  guardedClauses.filter fun name => containsFold t name

/-! ## Example inputs -/

/-- A bare node that renders `(n)` -/
def nodeN : OnlyNode := { isZero := false, ToCypher := ("(n)".toList, none), val := 1 }

/-- A bare node whose render fails, returning the text `(bad)` with its error -/
def nodeBad : OnlyNode :=
  { isZero := false, ToCypher := ("(bad)".toList, some (errorsNew "bad node".toList)), val := 2 }

/-- The zero value `OnlyNode{}` -/
def nodeZero : OnlyNode := { isZero := true, ToCypher := ([], none) }

/-- A populated partial relationship -/
def partialR : PartialRelationship := { isZero := false, val := 1 }

/-- The zero value `PartialRelationship{}` -/
def partialZero : PartialRelationship := { isZero := true }

/-- A populated full relationship -/
def fullR : FullRelationship := { isZero := false, val := 1 }

/-- The zero value `FullRelationship{}` -/
def fullZero : FullRelationship := { isZero := true }

/-- An edge whose partial build renders `-[r]->(m)` and whose full build renders
`(a)-[r]->(b)` -/
def edgeR : Edge :=
  { PartialRelationshipBuild := fun _ => ("-[r]->(m)".toList, none),
    RelationshipBuild := fun _ => ("(a)-[r]->(b)".toList, none) }

/-- The pattern with only the bare node `(n)` populated -/
def patternNode : QueryPattern :=
  { OnlyNode := nodeN, PartialRelationship := partialZero, FullRelationship := fullZero,
    Edge := edgeR }

/-- The pattern with only the partial relationship populated -/
def patternPartial : QueryPattern :=
  { OnlyNode := nodeZero, PartialRelationship := partialR, FullRelationship := fullZero,
    Edge := edgeR }

/-- The pattern with all three variants populated -/
def patternAll : QueryPattern :=
  { OnlyNode := nodeN, PartialRelationship := partialR, FullRelationship := fullR,
    Edge := edgeR }

/-- The pattern with the partial and the full relationship populated -/
def patternBothRel : QueryPattern :=
  { OnlyNode := nodeZero, PartialRelationship := partialR, FullRelationship := fullR,
    Edge := edgeR }

/-- The pattern with no variant populated -/
def patternZero : QueryPattern :=
  { OnlyNode := nodeZero, PartialRelationship := partialZero, FullRelationship := fullZero,
    Edge := edgeR }

/-- The pattern whose only populated variant is the bare node `nodeBad`, whose
render fails -/
def patternBad : QueryPattern :=
  { OnlyNode := nodeBad, PartialRelationship := partialZero, FullRelationship := fullZero,
    Edge := edgeR }

/-- A bare node whose render succeeds with a text that ends in a line terminator -/
def nodeNewline : OnlyNode :=
  { isZero := false, ToCypher := ("(n)\n".toList, none), val := 3 }

/-- The pattern with only the bare node `nodeNewline` populated -/
def patternNewline : QueryPattern :=
  { OnlyNode := nodeNewline, PartialRelationship := partialZero, FullRelationship := fullZero,
    Edge := edgeR }

/-- A clause content object that renders `a` -/
def cfgA : QueryConfig := { isZero := false, ToString := ("a".toList, none), val := 1 }

/-- A clause content object that renders `b` -/
def cfgB : QueryConfig := { isZero := false, ToString := ("b".toList, none), val := 2 }

/-- A clause content object that renders `c` -/
def cfgC : QueryConfig := { isZero := false, ToString := ("c".toList, none), val := 3 }

/-- A clause content object whose render fails and returns the text `(bad)` along
with its error -/
def cfgBad : QueryConfig :=
  { isZero := false, ToString := ("(bad)".toList, some (errorsNew "bad item".toList)), val := 4 }

/-- A clause content object whose render fails and returns no text -/
def cfgFail : QueryConfig :=
  { isZero := false, ToString := ([], some (errorsNew "failed item".toList)), val := 5 }

/-- A remove description whose render succeeds with a text ending in `", "` -/
def cfgTrail : QueryConfig :=
  { isZero := false, ToString := ("n.prop, ".toList, none), val := 6 }

/-- The zero value of a clause content type -/
def cfgZero : QueryConfig := { isZero := true, ToString := ([], none) }

/-- A nested builder holding `MATCH (n)`, newline, `RETURN n`, newline, as left by
`Match` and `Return`: its finalized text is `MATCH (n)`, newline, `RETURN n` -/
def nested : QueryBuilder := { query := "MATCH (n)\nRETURN n\n".toList, errors := [] }

/-- A builder state in the middle of a chain: some text and one recorded error -/
def busy : QueryBuilder :=
  { query := "MATCH (n)\n".toList, errors := [errorsNew "earlier".toList] }

/-- The nested builder of `sampleChain`: a fresh builder after `Return` of `c` -/
def sampleNested : QueryBuilder := NewQueryBuilder.Return [cfgC]

/-- A chain of public operations on a fresh builder: `Match` of the node `(n)`,
`Return` of `a`, `b`, `Limit(5)`, and `Call` of `sampleNested` -/
def sampleChain : QueryBuilder :=
  ((((NewQueryBuilder.Match [patternNode]).Return [cfgA, cfgB]).Limit 5).Call sampleNested).1

/-- A memory with one builder, `busy`, at every address -/
def oneBuilder : Store := fun _ => busy

/-- A memory with the outer builder `busy` at address `0` and the nested builder
`nested` at the other addresses -/
def outerAndNested : Store := fun p => if p = 0 then busy else nested

theorem HasSuffix_iff (s suffix : GoString) : HasSuffix s suffix = true ↔ suffix <:+ s := by
  unfold HasSuffix
  constructor
  · intro h
    simp only [Bool.and_eq_true, decide_eq_true_eq, beq_iff_eq] at h
    exact List.suffix_iff_eq_drop.mpr h.2.symm
  · intro h
    simp only [Bool.and_eq_true, decide_eq_true_eq, beq_iff_eq]
    exact ⟨h.length_le, (List.suffix_iff_eq_drop.mp h).symm⟩

theorem TrimSuffix_append (s suffix : GoString) : TrimSuffix (s ++ suffix) suffix = s := by
  have h : HasSuffix (s ++ suffix) suffix = true :=
    (HasSuffix_iff _ _).mpr (List.suffix_append s suffix)
  simp [TrimSuffix, h]

theorem TrimSuffix_of_not (s suffix : GoString) (h : HasSuffix s suffix = false) :
    TrimSuffix s suffix = s := by
  simp [TrimSuffix, h]

theorem HasSuffix_singleton (s : GoString) (c : Char) :
    HasSuffix s [c] = true ↔ s.getLast? = some c := by
  rw [HasSuffix_iff]
  constructor
  · rintro ⟨t, rfl⟩
    simp
  · intro h
    obtain ⟨t, rfl⟩ : ∃ t, s = t ++ [c] := by
      rcases List.eq_nil_or_concat s with rfl | ⟨t, b, rfl⟩
      · simp at h
      · simp at h
        exact ⟨t, by rw [h]; simp⟩
    exact List.suffix_append t [c]

theorem flatten_map_append_sep (sep : GoString) (ts : List GoString) (hne : ts ≠ []) :
    (ts.map fun t => t ++ sep).flatten = sep.intercalate ts ++ sep := by
  induction ts with
  | nil => exact absurd rfl hne
  | cons t rest ih =>
    cases rest with
    | nil => simp [List.intercalate]
    | cons u us =>
      have ih2 := ih (by simp)
      simp only [List.map_cons, List.flatten_cons] at ih2 ⊢
      rw [ih2]
      simp [List.intercalate, List.intersperse, List.append_assoc]

theorem intercalate_cons_of_ne_nil (sep l : GoString) (ls : List GoString) (hne : ls ≠ []) :
    sep.intercalate (l :: ls) = l ++ (sep ++ sep.intercalate ls) := by
  cases ls with
  | nil => exact absurd rfl hne
  | cons m ms => simp [List.intercalate, List.intersperse]

theorem intercalate_modifyHead_cons (sep : GoString) (c : Char) (ls : List GoString)
    (hne : ls ≠ []) :
    sep.intercalate (ls.modifyHead (List.cons c)) = c :: sep.intercalate ls := by
  cases ls with
  | nil => exact absurd rfl hne
  | cons l ms =>
    cases ms with
    | nil => simp [List.intercalate, List.modifyHead]
    | cons m ms => simp [List.intercalate, List.intersperse, List.modifyHead]

theorem splitOn_ne_nil (c : Char) (t : GoString) : t.splitOn c ≠ [] :=
  List.splitOnP_ne_nil _ t

theorem splitOn_cons_self (c : Char) (t : GoString) :
    (c :: t).splitOn c = [] :: t.splitOn c := by
  simp [List.splitOn]

theorem splitOn_cons_of_ne (c d : Char) (t : GoString) (h : d ≠ c) :
    (d :: t).splitOn c = (t.splitOn c).modifyHead (List.cons d) := by
  simp [List.splitOn, h]

theorem len_cons (c : Char) (t : GoString) : len (c :: t) = c.utf8Size + len t := by
  simp [len]

theorem len_pos_of_ne_nil (t : GoString) (hne : t ≠ []) : 0 < len t := by
  cases t with
  | nil => exact absurd rfl hne
  | cons c u =>
    rw [len_cons]
    have := c.utf8Size_pos
    omega

theorem indented_lines (ls : List GoString) (hne : ls ≠ []) :
    "  ".toList ++ "\n  ".toList.intercalate ls ++ "\n".toList =
      (ls.map fun l => "  ".toList ++ l ++ "\n".toList).flatten := by
  induction ls with
  | nil => exact absurd rfl hne
  | cons l rest ih =>
    cases rest with
    | nil => simp [List.intercalate]
    | cons m ms =>
      have ih2 := ih (by simp)
      rw [intercalate_cons_of_ne_nil _ _ _ (by simp), List.map_cons, List.flatten_cons, ← ih2]
      simp [List.append_assoc]

theorem CallLoop_eq (n : Nat) (rest : GoString) (i : Nat) (buffer : GoString)
    (hlen : i + len rest = n) (hlast : rest.getLast? ≠ some '\n') :
    QueryBuilder.CallLoop n rest i buffer =
      buffer ++ "\n  ".toList.intercalate (rest.splitOn '\n') := by
  induction rest generalizing i buffer with
  | nil => simp [QueryBuilder.CallLoop, List.intercalate]
  | cons c rest ih =>
    rw [len_cons] at hlen
    have hlast2 : rest.getLast? ≠ some '\n' := by
      cases rest with
      | nil => simp
      | cons d u => simpa [List.getLast?_cons_cons] using hlast
    by_cases hc : c = '\n'
    · subst hc
      have hne : rest ≠ [] := by
        rintro rfl
        simp at hlast
      have hpos := len_pos_of_ne_nil rest hne
      have h1 : Char.utf8Size '\n' = 1 := by decide
      have hi : (i : Int) ≠ (n : Int) - 1 := by omega
      rw [QueryBuilder.CallLoop, ih _ _ (by omega) hlast2, splitOn_cons_self,
        intercalate_cons_of_ne_nil _ _ _ (splitOn_ne_nil _ _)]
      simp [hi]
    · rw [QueryBuilder.CallLoop, ih _ _ (by omega) hlast2, splitOn_cons_of_ne _ _ _ hc,
        intercalate_modifyHead_cons _ _ _ (splitOn_ne_nil _ _)]
      simp [hc]

theorem Itoa_natCast (n : Nat) : Itoa (n : Int) = (Nat.repr n).toList := by
  simp [Itoa]
  rfl


namespace QueryBuilder

theorem addError_eq (q : QueryBuilder) (e : GoError) :
    q.addError e = { q with errors := q.errors ++ [e] } := by
  unfold addError
  cases h : q.errors <;> simp

theorem addErrorIfAny_eq (q : QueryBuilder) (err : Option GoError) :
    q.addErrorIfAny err = { q with errors := q.errors ++ err.toList } := by
  cases err <;> simp [addErrorIfAny, addError_eq]

theorem mapConfigToStringLoop_eq (clauses : List QueryConfig) (query : GoString)
    (qb : QueryBuilder) :
    mapConfigToStringLoop clauses query qb =
      (query ++ (clauses.map fun c => c.ToString.1).flatten,
        { qb with errors := qb.errors ++ (clauses.map fun c => renderErrors c.ToString).flatten,
                  calls := qb.calls ++ clauses.map RenderCall.ToString }) := by
  induction clauses generalizing query qb with
  | nil => simp [mapConfigToStringLoop]
  | cons c rest ih =>
    rw [mapConfigToStringLoop, ih]
    simp [addErrorIfAny_eq, render, renderErrors, List.append_assoc]

theorem mapConfigToString_eq (qb : QueryBuilder) (clauses : List QueryConfig) :
    qb.mapConfigToString clauses =
      ((clauses.map fun c => c.ToString.1).flatten,
        { qb with errors := qb.errors ++ (clauses.map fun c => renderErrors c.ToString).flatten,
                  calls := qb.calls ++ clauses.map RenderCall.ToString }) := by
  simp [mapConfigToString, mapConfigToStringLoop_eq]

theorem itemsLoop_eq (items : List QueryConfig) (query : GoString) (qb : QueryBuilder) :
    itemsLoop items query qb =
      (query ++ (items.map fun c => c.ToString.1 ++ ", ".toList).flatten,
        { qb with errors := qb.errors ++ (items.map fun c => renderErrors c.ToString).flatten,
                  calls := qb.calls ++ items.map RenderCall.ToString }) := by
  induction items generalizing query qb with
  | nil => simp [itemsLoop]
  | cons c rest ih =>
    rw [itemsLoop, ih, mapConfigToString_eq]
    simp [List.append_assoc]

theorem WhereLoop_eq (items : List ConditionalConfig) (qb : QueryBuilder) :
    WhereLoop items qb =
      { query := qb.query ++ (items.map fun c => c.ToString.1).flatten,
        errors := qb.errors ++ (items.map fun c => renderErrors c.ToString).flatten,
        calls := qb.calls ++ items.map RenderCall.ToString } := by
  induction items generalizing qb with
  | nil => simp [WhereLoop]
  | cons c rest ih =>
    rw [WhereLoop, ih, mapConfigToString_eq]
    simp [appendQuery, List.append_assoc]

theorem errorBuildLoop_eq (errs : List GoError) (str : GoString) :
    errorBuildLoop errs str = str ++ (errs.map fun e => e.Error ++ ";".toList).flatten := by
  induction errs generalizing str with
  | nil => simp [errorBuildLoop]
  | cons e rest ih =>
    rw [errorBuildLoop, ih]
    simp [List.append_assoc]

theorem queryPatternMap_eq (qb : QueryBuilder) (p : QueryPattern) :
    qb.queryPatternMap p =
      ((resolved p).1,
        { qb with errors := qb.errors ++ (resolved p).2.errors,
                  calls := qb.calls ++ (resolved p).2.calls }) := by
  unfold resolved queryPatternMap
  by_cases h1 : p.OnlyNode.isZero = true
  · by_cases h2 : p.PartialRelationship.isZero = true
    · by_cases h3 : p.FullRelationship.isZero = true
      · simp [h1, h2, h3, addError_eq, NewQueryBuilder]
      · simp [h1, h2, h3, addErrorIfAny_eq, render, NewQueryBuilder]
    · simp [h1, h2, addErrorIfAny_eq, render, NewQueryBuilder]
  · simp [h1, addErrorIfAny_eq, render, NewQueryBuilder]

theorem queryPatternUsageLoop_eq (ps : List QueryPattern) (query : GoString) (qb : QueryBuilder) :
    queryPatternUsageLoop ps query qb =
      (query ++ (ps.map fun p => (resolved p).1).flatten,
        { qb with errors := qb.errors ++ (ps.map fun p => (resolved p).2.errors).flatten,
                  calls := qb.calls ++ (ps.map fun p => (resolved p).2.calls).flatten }) := by
  induction ps generalizing query qb with
  | nil => simp [queryPatternUsageLoop]
  | cons p rest ih =>
    rw [queryPatternUsageLoop, ih, queryPatternMap_eq]
    simp [List.append_assoc]

theorem resolved_of_valid {p : QueryPattern} {t : GoString} (h : ValidPattern p t) :
    (resolved p).1 = t ∧ (resolved p).2.errors = [] := by
  unfold resolved queryPatternMap
  rcases h with ⟨h1, h2⟩ | ⟨h1, h2, h3⟩ | ⟨h1, h2, h3, h4⟩
  · simp [h1, h2, addErrorIfAny_eq, render, NewQueryBuilder]
  · simp [h1, h2, h3, addErrorIfAny_eq, render, NewQueryBuilder]
  · simp [h1, h2, h3, h4, addErrorIfAny_eq, render, NewQueryBuilder]

theorem resolved_of_forall₂ {ps : List QueryPattern} {texts : List GoString}
    (h : List.Forall₂ ValidPattern ps texts) :
    (ps.map fun p => (resolved p).1) = texts ∧
      (ps.map fun p => (resolved p).2.errors).flatten = [] := by
  induction h with
  | nil => simp
  | cons hpt _ ih =>
    obtain ⟨h1, h2⟩ := resolved_of_valid hpt
    simp [h1, h2, ih.1, ih.2]

theorem queryPatternUsage_valid (qb : QueryBuilder) (clause : GoString)
    {ps : List QueryPattern} {texts : List GoString} (hne : ps ≠ [])
    (h : List.Forall₂ ValidPattern ps texts) :
    (qb.queryPatternUsage clause ps).1 = clause ++ " ".toList ++ texts.flatten ++ "\n".toList ∧
      (qb.queryPatternUsage clause ps).2.query = qb.query ∧
      (qb.queryPatternUsage clause ps).2.errors = qb.errors := by
  obtain ⟨h1, h2⟩ := resolved_of_forall₂ h
  have hlen : ps.length ≠ 0 := by simpa using hne
  simp [queryPatternUsage, hlen, queryPatternUsageLoop_eq, h1, h2]

theorem queryPatternUsage_nil (qb : QueryBuilder) (clause : GoString) :
    qb.queryPatternUsage clause [] =
      ([], { qb with errors := qb.errors ++
        [errorsNew ("error ".toList ++ clause ++ " patterns null".toList)] }) := by
  simp [queryPatternUsage, addError_eq]

end QueryBuilder

/-! ## MATCH-class clauses and pattern resolution -/

namespace QueryBuilder

/-- C1: for each of `Match`, `OptionlMath`, `Merge` and `Create` and every
non-empty list of patterns each of which has a populated variant whose render
succeeds (with texts `texts`, in order), the call appends to the buffer exactly
keyword, one space, the texts concatenated in order with no separator, and a
newline, and leaves the error list unchanged. -/
theorem match_class_valid_patterns (qb : QueryBuilder) (patterns : List QueryPattern)
    (texts : List GoString) (hne : patterns ≠ [])
    (hvalid : List.Forall₂ ValidPattern patterns texts) :
    ((qb.Match patterns).query =
        qb.query ++ ("MATCH".toList ++ " ".toList ++ texts.flatten ++ "\n".toList) ∧
      (qb.Match patterns).errors = qb.errors) ∧
    ((qb.OptionlMath patterns).query =
        qb.query ++ ("OPTIONAL MATCH".toList ++ " ".toList ++ texts.flatten ++ "\n".toList) ∧
      (qb.OptionlMath patterns).errors = qb.errors) ∧
    ((qb.Merge patterns).query =
        qb.query ++ ("MERGE".toList ++ " ".toList ++ texts.flatten ++ "\n".toList) ∧
      (qb.Merge patterns).errors = qb.errors) ∧
    ((qb.Create patterns).query =
        qb.query ++ ("CREATE".toList ++ " ".toList ++ texts.flatten ++ "\n".toList) ∧
      (qb.Create patterns).errors = qb.errors) := by
  refine ⟨?_, ?_, ?_, ?_⟩
  · obtain ⟨h1, h2, h3⟩ := queryPatternUsage_valid qb "MATCH".toList hne hvalid
    simp only [Match, appendQuery, h1, h2, h3, and_self]
  · obtain ⟨h1, h2, h3⟩ := queryPatternUsage_valid qb "OPTIONAL MATCH".toList hne hvalid
    simp only [OptionlMath, appendQuery, h1, h2, h3, and_self]
  · obtain ⟨h1, h2, h3⟩ := queryPatternUsage_valid qb "MERGE".toList hne hvalid
    simp only [Merge, appendQuery, h1, h2, h3, and_self]
  · obtain ⟨h1, h2, h3⟩ := queryPatternUsage_valid qb "CREATE".toList hne hvalid
    simp only [Create, appendQuery, h1, h2, h3, and_self]

/-- Witness of C1: on a builder that already holds text and an error, `Match` of
the bare node `(n)` followed by the partial relationship `-[r]->(m)` appends
`MATCH (n)-[r]->(m)` and a newline and records nothing. -/
theorem match_class_valid_patterns_witness :
    [patternNode, patternPartial] ≠ [] ∧
    List.Forall₂ ValidPattern [patternNode, patternPartial]
      ["(n)".toList, "-[r]->(m)".toList] ∧
    (busy.Match [patternNode, patternPartial]).query
      = "MATCH (n)\nMATCH (n)-[r]->(m)\n".toList ∧
    (busy.Match [patternNode, patternPartial]).errors = [errorsNew "earlier".toList] :=
  have hne : [patternNode, patternPartial] ≠ [] := by simp
  have hv : List.Forall₂ ValidPattern [patternNode, patternPartial]
      ["(n)".toList, "-[r]->(m)".toList] :=
    List.Forall₂.cons (Or.inl ⟨rfl, rfl⟩)
      (List.Forall₂.cons (Or.inr (Or.inl ⟨rfl, rfl, rfl⟩)) List.Forall₂.nil)
  ⟨hne, hv, (match_class_valid_patterns busy _ _ hne hv).1⟩

/-- C2: each of `Match`, `OptionlMath`, `Merge` and `Create`, called with zero
patterns on any builder state, leaves the buffer unchanged and appends exactly
one error, last, whose description is `error <KEYWORD> patterns null` with the
keyword of that clause. -/
theorem match_class_zero_patterns (qb : QueryBuilder) :
    ((qb.Match []).query = qb.query ∧
      (qb.Match []).errors = qb.errors ++ [errorsNew "error MATCH patterns null".toList]) ∧
    ((qb.OptionlMath []).query = qb.query ∧
      (qb.OptionlMath []).errors =
        qb.errors ++ [errorsNew "error OPTIONAL MATCH patterns null".toList]) ∧
    ((qb.Merge []).query = qb.query ∧
      (qb.Merge []).errors = qb.errors ++ [errorsNew "error MERGE patterns null".toList]) ∧
    ((qb.Create []).query = qb.query ∧
      (qb.Create []).errors = qb.errors ++ [errorsNew "error CREATE patterns null".toList]) := by
  refine ⟨⟨?_, ?_⟩, ⟨?_, ?_⟩, ⟨?_, ?_⟩, ⟨?_, ?_⟩⟩ <;>
    simp [Match, OptionlMath, Merge, Create, appendQuery, queryPatternUsage_nil]

/-- C3: for every pattern whose bare-node, partial-relationship and
full-relationship variants all equal their zero value, `queryPatternMap` returns
the empty text, calls no render collaborator (the call log is unchanged), leaves
the buffer unchanged and appends exactly one error, with description
`error match QueryPattern null`. -/
theorem queryPatternMap_no_variant (qb : QueryBuilder) (pattern : QueryPattern)
    (hnode : pattern.OnlyNode.isZero = true)
    (hpart : pattern.PartialRelationship.isZero = true)
    (hfull : pattern.FullRelationship.isZero = true) :
    qb.queryPatternMap pattern =
      ([], { query := qb.query,
             errors := qb.errors ++ [errorsNew "error match QueryPattern null".toList],
             calls := qb.calls }) := by
  simp [queryPatternMap, hnode, hpart, hfull, addError_eq]

/-- Witness of C3: resolving the all-zero pattern on a builder in mid-chain. -/
theorem queryPatternMap_no_variant_witness :
    busy.queryPatternMap patternZero =
      ([], { query := "MATCH (n)\n".toList,
             errors := [errorsNew "earlier".toList,
                        errorsNew "error match QueryPattern null".toList],
             calls := [] }) :=
  queryPatternMap_no_variant busy patternZero rfl rfl rfl

/-- C4: pattern resolution is first-match in the order bare node, partial
relationship, full relationship.  If the bare node is populated, the result is
exactly the text the bare node renders, whatever the other two variants and the
edge are; if the bare node is not populated and the partial relationship is, the
result is exactly the text the partial relationship renders, whatever the full
relationship is.  In both cases the only collaborator call is the render of the
winning variant, and the only error recorded is the error of that render, if it
has one (so at most one). -/
theorem queryPatternMap_first_match (qb : QueryBuilder) (node : OnlyNode)
    (p : PartialRelationship) (f : FullRelationship) (edge : Edge) :
    (node.isZero = false →
      qb.queryPatternMap ⟨node, p, f, edge⟩ =
        (node.ToCypher.1,
          { query := qb.query,
            errors := qb.errors ++ renderErrors node.ToCypher,
            calls := qb.calls ++ [RenderCall.ToCypher node] })) ∧
    (node.isZero = true → p.isZero = false →
      qb.queryPatternMap ⟨node, p, f, edge⟩ =
        ((edge.PartialRelationshipBuild p).1,
          { query := qb.query,
            errors := qb.errors ++ renderErrors (edge.PartialRelationshipBuild p),
            calls := qb.calls ++ [RenderCall.PartialRelationshipBuild p] })) ∧
    (renderErrors node.ToCypher).length ≤ 1 ∧
    (renderErrors (edge.PartialRelationshipBuild p)).length ≤ 1 := by
  refine ⟨?_, ?_, ?_, ?_⟩
  · intro h
    simp [queryPatternMap, h, addErrorIfAny_eq, render, renderErrors]
  · intro h1 h2
    simp [queryPatternMap, h1, h2, addErrorIfAny_eq, render, renderErrors]
  · cases h : node.ToCypher.2 <;> simp [renderErrors, h]
  · cases h : (edge.PartialRelationshipBuild p).2 <;> simp [renderErrors, h]

/-- Witness of C4: with all three variants populated the bare node `(n)` wins; with
the partial and the full relationship populated the partial one wins. -/
theorem queryPatternMap_first_match_witness :
    (nodeN.isZero = false ∧
      busy.queryPatternMap patternAll =
        ("(n)".toList,
          { query := "MATCH (n)\n".toList, errors := [errorsNew "earlier".toList],
            calls := [RenderCall.ToCypher nodeN] })) ∧
    (nodeZero.isZero = true ∧ partialR.isZero = false ∧
      busy.queryPatternMap patternBothRel =
        ("-[r]->(m)".toList,
          { query := "MATCH (n)\n".toList, errors := [errorsNew "earlier".toList],
            calls := [RenderCall.PartialRelationshipBuild partialR] })) :=
  ⟨⟨rfl, (queryPatternMap_first_match busy nodeN partialR fullR edgeR).1 rfl⟩,
    ⟨rfl, rfl, (queryPatternMap_first_match busy nodeZero partialR fullR edgeR).2.1 rfl rfl⟩⟩

end QueryBuilder

/-! ## RETURN and WITH -/

namespace QueryBuilder

/-- C5: for every non-empty list of items whose renders all succeed, with texts
`t1 .. tn`, `Return` appends exactly `RETURN `, the texts joined by `", "` (no
separator after the last one) and a newline, and `With` appends the same with
`WITH `; this holds for every choice of the texts, and no error is added. -/
theorem return_with_join (qb : QueryBuilder) (items : List QueryConfig) (hne : items ≠ [])
    (hok : ∀ c ∈ items, c.ToString.2 = none) :
    ((qb.Return items).query =
        qb.query ++ ("RETURN ".toList ++
          ", ".toList.intercalate (items.map fun c => c.ToString.1) ++ "\n".toList) ∧
      (qb.Return items).errors = qb.errors) ∧
    ((qb.With items).query =
        qb.query ++ ("WITH ".toList ++
          ", ".toList.intercalate (items.map fun c => c.ToString.1) ++ "\n".toList) ∧
      (qb.With items).errors = qb.errors) := by
  have hlen : items.length ≠ 0 := by simpa using hne
  have herr : (items.map fun c => renderErrors c.ToString).flatten = [] := by
    simp only [List.flatten_eq_nil_iff, List.mem_map, forall_exists_index, and_imp,
      forall_apply_eq_imp_iff₂]
    intro c hc
    simp [renderErrors, hok c hc]
  have hjoin : (items.map fun c => c.ToString.1 ++ ", ".toList).flatten =
      ", ".toList.intercalate (items.map fun c => c.ToString.1) ++ ", ".toList := by
    have h := flatten_map_append_sep ", ".toList (items.map fun c => c.ToString.1)
      (by simpa using hne)
    simpa [List.map_map, Function.comp_def] using h
  refine ⟨?_, ?_⟩
  · simp only [Return, hlen, if_false, itemsLoop_eq, hjoin, herr, appendQuery]
    rw [← List.append_assoc "RETURN ".toList, TrimSuffix_append]
    simp
  · simp only [With, hlen, if_false, itemsLoop_eq, hjoin, herr, appendQuery]
    rw [← List.append_assoc "WITH ".toList, TrimSuffix_append]
    simp

/-- Witness of C5: items rendering `a`, `b`, `c` give `RETURN a, b, c` and a
newline (and the same with `WITH`), and add no error. -/
theorem return_with_join_witness :
    [cfgA, cfgB, cfgC] ≠ [] ∧ (∀ c ∈ [cfgA, cfgB, cfgC], c.ToString.2 = none) ∧
    ((NewQueryBuilder.Return [cfgA, cfgB, cfgC]).query = "RETURN a, b, c\n".toList ∧
      (NewQueryBuilder.Return [cfgA, cfgB, cfgC]).errors = []) ∧
    ((NewQueryBuilder.With [cfgA, cfgB, cfgC]).query = "WITH a, b, c\n".toList ∧
      (NewQueryBuilder.With [cfgA, cfgB, cfgC]).errors = []) :=
  have hne : [cfgA, cfgB, cfgC] ≠ [] := by simp
  have hok : ∀ c ∈ [cfgA, cfgB, cfgC], c.ToString.2 = none := by decide
  ⟨hne, hok, return_with_join NewQueryBuilder [cfgA, cfgB, cfgC] hne hok⟩

end QueryBuilder

/-! ## Finalization -/

namespace QueryBuilder

/-- C7: for every builder whose error list `e1 .. en` is non-empty, `Execute`
returns a composite error whose text is exactly `errors found: `, the
descriptions in recording order separated by single `;` (none after the last),
` -- total errors (`, the decimal text of `n`, and `)`; this holds for every
choice of the descriptions. -/
theorem execute_composite_error (qb : QueryBuilder) (hne : qb.errors ≠ []) :
    qb.Execute.1.2 =
      some (errorsNew ("errors found: ".toList ++
        ";".toList.intercalate (qb.errors.map fun e => e.Error) ++
        " -- total errors (".toList ++ (Nat.repr qb.errors.length).toList ++ ")".toList)) := by
  have hlen : qb.errors.length > 0 := List.length_pos.mpr hne
  have hjoin : (qb.errors.map fun e => e.Error ++ ";".toList).flatten =
      ";".toList.intercalate (qb.errors.map fun e => e.Error) ++ ";".toList := by
    have h := flatten_map_append_sep ";".toList (qb.errors.map fun e => e.Error)
      (by simpa using hne)
    simpa [List.map_map, Function.comp_def] using h
  simp only [Execute, errorBuild, hlen, if_true, errorBuildLoop_eq, hjoin, Itoa_natCast]
  rw [← List.append_assoc "errors found: ".toList, TrimSuffix_append]
  simp

/-- Witness of C7: the errors `e1`, `e2` give
`errors found: e1;e2 -- total errors (2)`. -/
theorem execute_composite_error_witness :
    [errorsNew "e1".toList, errorsNew "e2".toList] ≠ [] ∧
    (Execute { query := "MATCH (n)\n".toList,
               errors := [errorsNew "e1".toList, errorsNew "e2".toList] }).1.2 =
      some (errorsNew "errors found: e1;e2 -- total errors (2)".toList) :=
  have hne : [errorsNew "e1".toList, errorsNew "e2".toList] ≠ [] := by simp
  ⟨hne, execute_composite_error
    { query := "MATCH (n)\n".toList, errors := [errorsNew "e1".toList, errorsNew "e2".toList] }
    hne⟩

/-- C8, as the code has it: for every builder state whose error list is empty,
`Execute` returns an absent error, and a text that does not end with a line
terminator provided the buffer does not end with two consecutive line
terminators.  The text is the buffer with exactly one trailing line terminator
removed when it has one, and the buffer itself otherwise. -/
theorem execute_no_errors (qb : QueryBuilder) (hnil : qb.errors = []) :
    qb.Execute.1.2 = none ∧
    (HasSuffix qb.query "\n\n".toList = false →
      HasSuffix qb.Execute.1.1 "\n".toList = false) ∧
    (HasSuffix qb.query "\n".toList = true → qb.query = qb.Execute.1.1 ++ "\n".toList) ∧
    (HasSuffix qb.query "\n".toList = false → qb.Execute.1.1 = qb.query) := by
  refine ⟨by simp [Execute, errorBuild, hnil], ?_, ?_, ?_⟩
  · intro h2
    simp only [Execute]
    cases h1 : HasSuffix qb.query "\n".toList with
    | false => rw [TrimSuffix_of_not _ _ h1]; exact h1
    | true =>
      obtain ⟨t, ht⟩ := (HasSuffix_iff _ _).mp h1
      rw [← ht, TrimSuffix_append]
      cases h3 : HasSuffix t "\n".toList with
      | false => rfl
      | true =>
        obtain ⟨u, hu⟩ := (HasSuffix_iff _ _).mp h3
        have : HasSuffix qb.query "\n\n".toList = true := by
          rw [HasSuffix_iff]
          exact ⟨u, by rw [← ht, ← hu]; simp⟩
        rw [this] at h2
        exact absurd h2 (by simp)
  · intro h1
    obtain ⟨t, ht⟩ := (HasSuffix_iff _ _).mp h1
    simp only [Execute]
    rw [← ht, TrimSuffix_append]
  · intro h1
    simp only [Execute]
    exact TrimSuffix_of_not _ _ h1

/-- Witness of C8 as amended: a fresh builder after `Return` of `a`, `b`, `c`. -/
theorem execute_no_errors_witness :
    (NewQueryBuilder.Return [cfgA, cfgB, cfgC]).errors = [] ∧
    HasSuffix (NewQueryBuilder.Return [cfgA, cfgB, cfgC]).query "\n\n".toList = false ∧
    (NewQueryBuilder.Return [cfgA, cfgB, cfgC]).Execute.1.2 = none ∧
    (NewQueryBuilder.Return [cfgA, cfgB, cfgC]).Execute.1.1 = "RETURN a, b, c".toList ∧
    HasSuffix (NewQueryBuilder.Return [cfgA, cfgB, cfgC]).Execute.1.1 "\n".toList = false :=
  have hnil : (NewQueryBuilder.Return [cfgA, cfgB, cfgC]).errors = [] := by decide
  have h2 : HasSuffix (NewQueryBuilder.Return [cfgA, cfgB, cfgC]).query "\n\n".toList = false := by
    decide
  have h := execute_no_errors (NewQueryBuilder.Return [cfgA, cfgB, cfgC]) hnil
  ⟨hnil, h2, h.1, by decide, h.2.1 h2⟩

/-- C8 fails as stated: after `Match` of one pattern whose bare node renders,
without error, a text ending in a line terminator, the error list is empty and
`Execute` returns no error, yet the returned text `MATCH (n)` + newline still
ends with a line terminator. -/
theorem execute_no_errors_counterexample :
    (NewQueryBuilder.Match [patternNewline]).query = "MATCH (n)\n\n".toList ∧
    (NewQueryBuilder.Match [patternNewline]).errors = [] ∧
    (NewQueryBuilder.Match [patternNewline]).Execute.1.2 = none ∧
    (NewQueryBuilder.Match [patternNewline]).Execute.1.1 = "MATCH (n)\n".toList ∧
    HasSuffix (NewQueryBuilder.Match [patternNewline]).Execute.1.1 "\n".toList = true := by
  decide

end QueryBuilder

/-! ## Guards -/

namespace QueryBuilder

/-- C9: guard failures are atomic.  `Where`, `Return` and `With` called with zero
items, and `Delete`, `Remove` and `OrderBy` called with a zero-value description,
leave the buffer as it was on every builder state, append exactly one error,
last, and call no render collaborator (the call log is unchanged). -/
theorem guard_failure_atomic (qb : QueryBuilder) (detachDelete : Bool)
    (d : RemoveConfig) (r : RemoveConfig) (o : OrderByConfig)
    (hd : d.isZero = true) (hr : r.isZero = true) (ho : o.isZero = true) :
    qb.Where [] =
      { query := qb.query, calls := qb.calls,
        errors := qb.errors ++ [errorsNew "error empty Where clause".toList] } ∧
    qb.Return [] =
      { query := qb.query, calls := qb.calls,
        errors := qb.errors ++ [errorsNew "error empty Return clause".toList] } ∧
    qb.With [] =
      { query := qb.query, calls := qb.calls,
        errors := qb.errors ++ [errorsNew "error empty WITH clause".toList] } ∧
    qb.Delete detachDelete d =
      { query := qb.query, calls := qb.calls,
        errors := qb.errors ++ [errorsNew "error empty Delete clause".toList] } ∧
    qb.Remove r =
      { query := qb.query, calls := qb.calls,
        errors := qb.errors ++ [errorsNew "error empty where clause".toList] } ∧
    qb.OrderBy o =
      { query := qb.query, calls := qb.calls,
        errors := qb.errors ++ [errorsNew "error empty OrderBy clause".toList] } := by
  refine ⟨?_, ?_, ?_, ?_, ?_, ?_⟩
  · simp [Where, addError_eq]
  · simp [Return, addError_eq]
  · simp [With, addError_eq]
  · simp [Delete, hd, addError_eq]
  · simp [Remove, hr, addError_eq]
  · simp [OrderBy, ho, addError_eq]

/-- Witness of C9: the six failing guards on a builder in mid-chain. -/
theorem guard_failure_atomic_witness :
    cfgZero.isZero = true ∧
    (busy.Where []).query = "MATCH (n)\n".toList ∧
    (busy.Delete true cfgZero).query = "MATCH (n)\n".toList ∧
    (busy.Delete true cfgZero).errors =
      [errorsNew "earlier".toList, errorsNew "error empty Delete clause".toList] ∧
    (busy.Delete true cfgZero).calls = [] :=
  have h := guard_failure_atomic busy true cfgZero cfgZero cfgZero rfl rfl rfl
  ⟨rfl, by rw [h.1]; rfl, by rw [h.2.2.2.1]; rfl, by rw [h.2.2.2.1]; rfl,
    by rw [h.2.2.2.1]; rfl⟩

end QueryBuilder

/-! ## Clause composer -/

namespace QueryBuilder

/-- C10, as the code has it: for every sequence of clause content objects,
`mapConfigToString` renders every object exactly once, in order, leaves the
buffer unchanged and appends the error of each failing render, in order; the
result is the concatenation of the texts of all the renders, so an object whose
render fails contributes whatever text its render returned alongside the error.
When every failing render returns the empty text, the result is the
concatenation of the texts of the successful renders only. -/
theorem mapConfigToString_composes (qb : QueryBuilder) (clauses : List QueryConfig) :
    qb.mapConfigToString clauses =
      (allTexts clauses,
        { query := qb.query,
          errors := qb.errors ++ (clauses.map fun c => renderErrors c.ToString).flatten,
          calls := qb.calls ++ clauses.map RenderCall.ToString }) ∧
    ((∀ c ∈ clauses, c.ToString.2 ≠ none → c.ToString.1 = []) →
      (qb.mapConfigToString clauses).1 = successfulTexts clauses) := by
  refine ⟨by simp [mapConfigToString_eq, allTexts], ?_⟩
  intro h
  rw [mapConfigToString_eq]
  simp only [successfulTexts]
  congr 1
  apply List.map_congr_left
  intro c hc
  by_cases hn : c.ToString.2 = none
  · simp [hn]
  · simp [hn, h c hc hn]

/-- Witness of C10 as amended: `a`, a render that fails with no text, `b`. -/
theorem mapConfigToString_composes_witness :
    (∀ c ∈ [cfgA, cfgFail, cfgB], c.ToString.2 ≠ none → c.ToString.1 = []) ∧
    (busy.mapConfigToString [cfgA, cfgFail, cfgB]).1 = "ab".toList ∧
    successfulTexts [cfgA, cfgFail, cfgB] = "ab".toList :=
  have h : ∀ c ∈ [cfgA, cfgFail, cfgB], c.ToString.2 ≠ none → c.ToString.1 = [] := by decide
  ⟨h, ((mapConfigToString_composes busy [cfgA, cfgFail, cfgB]).2 h).trans (by decide),
    by decide⟩

/-- C10 fails as stated: composing `a`, then an object whose render fails and
returns the text `(bad)` with its error, then `b`, gives `a(bad)b`, while the
texts of the successful renders alone give `ab`; the failing object did not
contribute the empty string. -/
theorem mapConfigToString_composes_counterexample :
    cfgBad.ToString = ("(bad)".toList, some (errorsNew "bad item".toList)) ∧
    (NewQueryBuilder.mapConfigToString [cfgA, cfgBad, cfgB]).1 = "a(bad)b".toList ∧
    (NewQueryBuilder.mapConfigToString [cfgA, cfgBad, cfgB]).2.errors =
      [errorsNew "bad item".toList] ∧
    successfulTexts [cfgA, cfgBad, cfgB] = "ab".toList ∧
    (NewQueryBuilder.mapConfigToString [cfgA, cfgBad, cfgB]).1 ≠
      successfulTexts [cfgA, cfgBad, cfgB] := by
  decide

end QueryBuilder

/-! ## Subquery -/

namespace QueryBuilder

/-- The block `Call` appends when the nested builder is another builder than the
outer one and its finalized text has no trailing newline -/
theorem Call_lines (qb nqb : QueryBuilder)
    (hend : HasSuffix nqb.Execute.1.1 "\n".toList = false) :
    (qb.Call nqb).1.query =
      qb.query ++ ("CALL \x7b\n".toList ++
        ((nqb.Execute.1.1.splitOn '\n').map fun l => "  ".toList ++ l ++ "\n".toList).flatten ++
        "\x7d\n".toList) := by
  have hlast : nqb.Execute.1.1.getLast? ≠ some '\n' := by
    intro h
    have := (HasSuffix_singleton nqb.Execute.1.1 '\n').mpr h
    rw [show "\n".toList = ['\n'] from rfl] at hend
    rw [this] at hend
    exact absurd hend (by simp)
  have hq : ∀ (q : QueryBuilder) e, (q.addErrorIfAny e).query = q.query := by
    intro q e
    rw [addErrorIfAny_eq]
  simp only [Call, appendQuery, hq]
  rw [CallLoop_eq _ _ 0 [] (by simp) hlast, ← indented_lines _ (splitOn_ne_nil _ _)]
  simp [List.append_assoc]

end QueryBuilder

/-! ## The clause methods in closed form -/

theorem selected_resolved (p : QueryPattern) :
    (resolved p).1 = patternText p ∧ (resolved p).2.errors = (patternError p).toList := by
  unfold resolved QueryBuilder.queryPatternMap patternText patternError selected
  by_cases h1 : p.OnlyNode.isZero = true
  · by_cases h2 : p.PartialRelationship.isZero = true
    · by_cases h3 : p.FullRelationship.isZero = true
      · simp [h1, h2, h3, QueryBuilder.addError_eq, NewQueryBuilder]
      · simp [h1, h2, h3, QueryBuilder.addErrorIfAny_eq, QueryBuilder.render, NewQueryBuilder]
    · simp [h1, h2, QueryBuilder.addErrorIfAny_eq, QueryBuilder.render, NewQueryBuilder]
  · simp [h1, QueryBuilder.addErrorIfAny_eq, QueryBuilder.render, NewQueryBuilder]

theorem map_resolved_text (ps : List QueryPattern) :
    (ps.map fun p => (resolved p).1) = ps.map patternText := by
  apply List.map_congr_left
  intro p _
  exact (selected_resolved p).1

theorem map_resolved_errors (ps : List QueryPattern) :
    (ps.map fun p => (resolved p).2.errors).flatten = ps.filterMap patternError := by
  induction ps with
  | nil => rfl
  | cons p rest ih =>
    rw [List.map_cons, List.flatten_cons, ih, (selected_resolved p).2]
    cases h : patternError p <;> simp [List.filterMap_cons, h]

namespace QueryBuilder

theorem errorBuild_nil (qb : QueryBuilder) (h : qb.errors = []) : qb.errorBuild = none := by
  simp [errorBuild, h]

theorem errorBuild_of_ne_nil (qb : QueryBuilder) (hne : qb.errors ≠ []) :
    qb.errorBuild = some (errorsNew (compositeText qb.errors)) := by
  have hlen : qb.errors.length > 0 := List.length_pos.mpr hne
  have hjoin : (qb.errors.map fun e => e.Error ++ ";".toList).flatten =
      ";".toList.intercalate (qb.errors.map fun e => e.Error) ++ ";".toList := by
    have h := flatten_map_append_sep ";".toList (qb.errors.map fun e => e.Error)
      (by simpa using hne)
    simpa [List.map_map, Function.comp_def] using h
  simp only [errorBuild, hlen, if_true, errorBuildLoop_eq, hjoin, Itoa_natCast, compositeText]
  rw [← List.append_assoc "errors found: ".toList, TrimSuffix_append]
  simp

theorem queryPatternUsage_of_ne_nil (qb : QueryBuilder) (clause : GoString)
    (ps : List QueryPattern) (hne : ps ≠ []) :
    qb.queryPatternUsage clause ps =
      (clause ++ " ".toList ++ (ps.map patternText).flatten ++ "\n".toList,
        { query := qb.query,
          errors := qb.errors ++ ps.filterMap patternError,
          calls := qb.calls ++ (ps.map fun p => (resolved p).2.calls).flatten }) := by
  have hlen : ps.length ≠ 0 := by simpa using hne
  simp [queryPatternUsage, hlen, queryPatternUsageLoop_eq, map_resolved_text,
    map_resolved_errors]

theorem Delete_of_not_zero (qb : QueryBuilder) (detachDelete : Bool) (c : RemoveConfig)
    (h : c.isZero = false) :
    qb.Delete detachDelete c =
      { query := qb.query ++
          ((if detachDelete then "DETACH DELETE ".toList else "DELETE ".toList) ++
            c.ToString.1 ++ "\n".toList),
        errors := qb.errors ++ renderErrors c.ToString,
        calls := qb.calls ++ [RenderCall.ToString c] } := by
  cases detachDelete <;> simp [Delete, h, mapConfigToString_eq, appendQuery, List.append_assoc]

theorem Where_of_ne_nil (qb : QueryBuilder) (cs : List ConditionalConfig) (hne : cs ≠ []) :
    qb.Where cs =
      { query := qb.query ++ ("WHERE ".toList ++ allTexts cs ++ "\n".toList),
        errors := qb.errors ++ (cs.map fun c => renderErrors c.ToString).flatten,
        calls := qb.calls ++ cs.map RenderCall.ToString } := by
  have hlen : cs.length ≠ 0 := by simpa using hne
  simp [Where, hlen, WhereLoop_eq, appendQuery, allTexts, List.append_assoc]

theorem items_join (kw : GoString) (cs : List QueryConfig) (hne : cs ≠ []) :
    TrimSuffix (kw ++ (cs.map fun c => c.ToString.1 ++ ", ".toList).flatten) ", ".toList =
      kw ++ ", ".toList.intercalate (cs.map fun c => c.ToString.1) := by
  have hjoin : (cs.map fun c => c.ToString.1 ++ ", ".toList).flatten =
      ", ".toList.intercalate (cs.map fun c => c.ToString.1) ++ ", ".toList := by
    have h := flatten_map_append_sep ", ".toList (cs.map fun c => c.ToString.1)
      (by simpa using hne)
    simpa [List.map_map, Function.comp_def] using h
  rw [hjoin, ← List.append_assoc, TrimSuffix_append]

theorem Return_of_ne_nil (qb : QueryBuilder) (cs : List ReturnConfig) (hne : cs ≠ []) :
    qb.Return cs =
      { query := qb.query ++ ("RETURN ".toList ++
          ", ".toList.intercalate (cs.map fun c => c.ToString.1) ++ "\n".toList),
        errors := qb.errors ++ (cs.map fun c => renderErrors c.ToString).flatten,
        calls := qb.calls ++ cs.map RenderCall.ToString } := by
  have hlen : cs.length ≠ 0 := by simpa using hne
  simp only [Return, hlen, if_false, itemsLoop_eq, appendQuery, items_join _ _ hne]

theorem With_of_ne_nil (qb : QueryBuilder) (cs : List WithConfig) (hne : cs ≠ []) :
    qb.With cs =
      { query := qb.query ++ ("WITH ".toList ++
          ", ".toList.intercalate (cs.map fun c => c.ToString.1) ++ "\n".toList),
        errors := qb.errors ++ (cs.map fun c => renderErrors c.ToString).flatten,
        calls := qb.calls ++ cs.map RenderCall.ToString } := by
  have hlen : cs.length ≠ 0 := by simpa using hne
  simp only [With, hlen, if_false, itemsLoop_eq, appendQuery, items_join _ _ hne]

theorem Remove_of_not_zero (qb : QueryBuilder) (c : RemoveConfig) (h : c.isZero = false) :
    qb.Remove c =
      { query := qb.query ++
          (TrimSuffix ("REMOVE ".toList ++ c.ToString.1) ", ".toList ++ "\n".toList),
        errors := qb.errors ++ renderErrors c.ToString,
        calls := qb.calls ++ [RenderCall.ToString c] } := by
  simp [Remove, h, mapConfigToString_eq, appendQuery]

theorem OrderBy_of_not_zero (qb : QueryBuilder) (c : OrderByConfig) (h : c.isZero = false) :
    qb.OrderBy c =
      { query := qb.query ++ ("ORDER BY ".toList ++ c.ToString.1 ++ "\n".toList),
        errors := qb.errors ++ renderErrors c.ToString,
        calls := qb.calls ++ [RenderCall.ToString c] } := by
  simp [OrderBy, h, mapConfigToString_eq, appendQuery, List.append_assoc]

theorem Call_outer (qb nqb : QueryBuilder) :
    (qb.Call nqb).1 =
      { query := qb.query ++ ("CALL \x7b\n".toList ++ ("  ".toList ++
          CallLoop (len nqb.Execute.1.1) nqb.Execute.1.1 0 [] ++ "\n\x7d\n".toList)),
        errors := qb.errors ++ nqb.errorBuild.toList,
        calls := qb.calls } := by
  have h : nqb.Execute.1.2 = nqb.errorBuild := rfl
  simp only [Call, addErrorIfAny_eq, appendQuery, h]

theorem Call_nested (qb nqb : QueryBuilder) : (qb.Call nqb).2 = nqb.Execute.2 := rfl

end QueryBuilder

/-! ## Both lists only grow -/

namespace QueryBuilder

theorem addError_grows (qb : QueryBuilder) (e : GoError) :
    (qb.addError e).query = qb.query ∧ qb.errors <+: (qb.addError e).errors := by
  rw [addError_eq]
  exact ⟨rfl, List.prefix_append _ _⟩

theorem matchClass_grows (qb : QueryBuilder) (clause : GoString) (ps : List QueryPattern) :
    qb.query <+: ((qb.queryPatternUsage clause ps).2.appendQuery
        (qb.queryPatternUsage clause ps).1).query ∧
      qb.errors <+: ((qb.queryPatternUsage clause ps).2.appendQuery
        (qb.queryPatternUsage clause ps).1).errors := by
  by_cases h : ps = []
  · subst h
    rw [queryPatternUsage_nil]
    simp [appendQuery]
  · rw [queryPatternUsage_of_ne_nil qb clause ps h]
    exact ⟨List.prefix_append _ _, List.prefix_append _ _⟩

theorem Delete_grows (qb : QueryBuilder) (detachDelete : Bool) (c : RemoveConfig) :
    qb.query <+: (qb.Delete detachDelete c).query ∧
      qb.errors <+: (qb.Delete detachDelete c).errors := by
  cases h : c.isZero with
  | true => simp [Delete, h, addError_eq]
  | false =>
    rw [Delete_of_not_zero qb detachDelete c h]
    exact ⟨List.prefix_append _ _, List.prefix_append _ _⟩

theorem Where_grows (qb : QueryBuilder) (cs : List ConditionalConfig) :
    qb.query <+: (qb.Where cs).query ∧ qb.errors <+: (qb.Where cs).errors := by
  by_cases h : cs = []
  · subst h
    simp [Where, addError_eq]
  · rw [Where_of_ne_nil qb cs h]
    exact ⟨List.prefix_append _ _, List.prefix_append _ _⟩

theorem Return_grows (qb : QueryBuilder) (cs : List ReturnConfig) :
    qb.query <+: (qb.Return cs).query ∧ qb.errors <+: (qb.Return cs).errors := by
  by_cases h : cs = []
  · subst h
    simp [Return, addError_eq]
  · rw [Return_of_ne_nil qb cs h]
    exact ⟨List.prefix_append _ _, List.prefix_append _ _⟩

theorem With_grows (qb : QueryBuilder) (cs : List WithConfig) :
    qb.query <+: (qb.With cs).query ∧ qb.errors <+: (qb.With cs).errors := by
  by_cases h : cs = []
  · subst h
    simp [With, addError_eq]
  · rw [With_of_ne_nil qb cs h]
    exact ⟨List.prefix_append _ _, List.prefix_append _ _⟩

theorem Remove_grows (qb : QueryBuilder) (c : RemoveConfig) :
    qb.query <+: (qb.Remove c).query ∧ qb.errors <+: (qb.Remove c).errors := by
  cases h : c.isZero with
  | true => simp [Remove, h, addError_eq]
  | false =>
    rw [Remove_of_not_zero qb c h]
    exact ⟨List.prefix_append _ _, List.prefix_append _ _⟩

theorem OrderBy_grows (qb : QueryBuilder) (c : OrderByConfig) :
    qb.query <+: (qb.OrderBy c).query ∧ qb.errors <+: (qb.OrderBy c).errors := by
  cases h : c.isZero with
  | true => simp [OrderBy, h, addError_eq]
  | false =>
    rw [OrderBy_of_not_zero qb c h]
    exact ⟨List.prefix_append _ _, List.prefix_append _ _⟩

theorem Union_grows (qb : QueryBuilder) (all : Bool) :
    qb.query <+: (qb.Union all).query ∧ (qb.Union all).errors = qb.errors := by
  cases all <;> simp [Union, appendQuery]

theorem Limit_grows (qb : QueryBuilder) (limit : Int) :
    qb.query <+: (qb.Limit limit).query ∧ (qb.Limit limit).errors = qb.errors := by
  simp [Limit, appendQuery]

theorem Call_grows (qb nqb : QueryBuilder) :
    qb.query <+: (qb.Call nqb).1.query ∧ qb.errors <+: (qb.Call nqb).1.errors := by
  rw [Call_outer]
  exact ⟨List.prefix_append _ _, List.prefix_append _ _⟩

theorem TrimSuffix_initial (s suffix : GoString) : TrimSuffix s suffix <+: s := by
  unfold TrimSuffix
  split
  · exact List.take_prefix _ _
  · exact List.prefix_refl _

end QueryBuilder

/-! ## Chains of failing guards -/

theorem GuardCall.run_of_fails (qb : QueryBuilder) (c : GuardCall) (h : c.fails = true) :
    GuardCall.run qb c =
      { query := qb.query, errors := qb.errors ++ [errorsNew c.message], calls := qb.calls } := by
  cases c with
  | Match => simp [GuardCall.run, GuardCall.message, QueryBuilder.Match,
      QueryBuilder.queryPatternUsage_nil, QueryBuilder.appendQuery]
  | OptionlMath => simp [GuardCall.run, GuardCall.message, QueryBuilder.OptionlMath,
      QueryBuilder.queryPatternUsage_nil, QueryBuilder.appendQuery]
  | Merge => simp [GuardCall.run, GuardCall.message, QueryBuilder.Merge,
      QueryBuilder.queryPatternUsage_nil, QueryBuilder.appendQuery]
  | Create => simp [GuardCall.run, GuardCall.message, QueryBuilder.Create,
      QueryBuilder.queryPatternUsage_nil, QueryBuilder.appendQuery]
  | Where => simp [GuardCall.run, GuardCall.message, QueryBuilder.Where,
      QueryBuilder.addError_eq]
  | Return => simp [GuardCall.run, GuardCall.message, QueryBuilder.Return,
      QueryBuilder.addError_eq]
  | With => simp [GuardCall.run, GuardCall.message, QueryBuilder.With,
      QueryBuilder.addError_eq]
  | Delete d c =>
    simp only [GuardCall.fails] at h
    simp [GuardCall.run, GuardCall.message, QueryBuilder.Delete, h, QueryBuilder.addError_eq]
  | Remove c =>
    simp only [GuardCall.fails] at h
    simp [GuardCall.run, GuardCall.message, QueryBuilder.Remove, h, QueryBuilder.addError_eq]
  | OrderBy c =>
    simp only [GuardCall.fails] at h
    simp [GuardCall.run, GuardCall.message, QueryBuilder.OrderBy, h, QueryBuilder.addError_eq]

theorem runChain_of_fails (qb : QueryBuilder) (chain : List GuardCall)
    (h : ∀ c ∈ chain, c.fails = true) :
    runChain qb chain =
      { query := qb.query,
        errors := qb.errors ++ chain.map fun c => errorsNew c.message,
        calls := qb.calls } := by
  induction chain generalizing qb with
  | nil => simp [runChain]
  | cons c rest ih =>
    have hc := h c (List.mem_cons_self _ _)
    have hrest : ∀ d ∈ rest, d.fails = true := fun d hd => h d (List.mem_cons_of_mem _ hd)
    have step : runChain qb (c :: rest) = runChain (GuardCall.run qb c) rest := rfl
    rw [step, ih _ hrest, GuardCall.run_of_fails qb c hc]
    simp

/-! ## Errors across `Call` and along a chain -/

namespace QueryBuilder

/-- C11: `Call` forwards the failures of the nested builder as one entry.  For
every outer builder and every nested builder with `k` recorded errors, the outer
error list after `Call` is the list before it followed by exactly one error,
whose description is the composite text of the nested builder
(`errors found: ` .. ` -- total errors (k)`), when `k ≥ 1`, and is the list
before it when `k = 0`; so it grows by at most one entry. -/
theorem call_forwards_one_error (qb nqb : QueryBuilder) :
    (nqb.errors ≠ [] →
      (qb.Call nqb).1.errors =
        qb.errors ++ [errorsNew ("errors found: ".toList ++
          ";".toList.intercalate (nqb.errors.map fun e => e.Error) ++
          " -- total errors (".toList ++ (Nat.repr nqb.errors.length).toList ++ ")".toList)]) ∧
    (nqb.errors = [] → (qb.Call nqb).1.errors = qb.errors) ∧
    (qb.Call nqb).1.errors.length ≤ qb.errors.length + 1 := by
  refine ⟨?_, ?_, ?_⟩
  · intro h
    rw [Call_outer, errorBuild_of_ne_nil nqb h]
    rfl
  · intro h
    rw [Call_outer, errorBuild_nil nqb h]
    simp
  · rw [Call_outer]
    cases h : nqb.errorBuild <;> simp

/-- Witness of C11: a nested builder with the two errors `e1`, `e2` adds the single
entry `errors found: e1;e2 -- total errors (2)` to the outer list. -/
theorem call_forwards_one_error_witness :
    (Call busy { query := [], errors := [errorsNew "e1".toList, errorsNew "e2".toList] }).1.errors =
      [errorsNew "earlier".toList,
        errorsNew "errors found: e1;e2 -- total errors (2)".toList] ∧
    (Call busy nested).1.errors = [errorsNew "earlier".toList] :=
  ⟨(call_forwards_one_error busy
      { query := [], errors := [errorsNew "e1".toList, errorsNew "e2".toList] }).1 (by simp),
    (call_forwards_one_error busy nested).2.1 rfl⟩

/-- C12: errors are deferred and surface together in call order.  For every chain
of `n ≥ 1` clause calls on a fresh builder, each of which fails its guard,
`Execute` returns the empty text together with the composite error
`errors found: m1;..;mn -- total errors (n)`, `mi` being the message of the
`i`-th call of the chain. -/
theorem chain_errors_surface_together (chain : List GuardCall) (hne : chain ≠ [])
    (hfail : ∀ c ∈ chain, c.fails = true) :
    (runChain NewQueryBuilder chain).Execute.1 =
      ([], some (errorsNew ("errors found: ".toList ++
        ";".toList.intercalate (chain.map fun c => c.message) ++
        " -- total errors (".toList ++ (Nat.repr chain.length).toList ++ ")".toList))) := by
  rw [runChain_of_fails _ _ hfail]
  simp only [Execute]
  rw [errorBuild_of_ne_nil]
  · simp [NewQueryBuilder, compositeText, TrimSuffix, HasSuffix, List.map_map, Function.comp_def,
      errorsNew]
  · simpa [NewQueryBuilder] using hne

/-- Witness of C12: `NewQueryBuilder().Match().Where().Return().Execute()` yields the
empty text and the three messages in call order. -/
theorem chain_errors_surface_together_witness :
    [GuardCall.Match, GuardCall.Where, GuardCall.Return] ≠ [] ∧
    (∀ c ∈ [GuardCall.Match, GuardCall.Where, GuardCall.Return], c.fails = true) ∧
    (((NewQueryBuilder.Match []).Where []).Return []).Execute.1 =
      ([], some (errorsNew ("errors found: error MATCH patterns null;" ++
        "error empty Where clause;error empty Return clause -- total errors (3)").toList)) :=
  have hne : [GuardCall.Match, GuardCall.Where, GuardCall.Return] ≠ [] := by simp
  have hfail : ∀ c ∈ [GuardCall.Match, GuardCall.Where, GuardCall.Return], c.fails = true := by
    decide
  ⟨hne, hfail, chain_errors_surface_together _ hne hfail⟩

/-- C14: the text buffer is append-only under every clause method: the buffer
before the call is a prefix of the buffer after it, for `Match`, `OptionlMath`,
`Merge`, `Create`, `Delete`, `Where`, `Return`, `Remove`, `Union`, `With`,
`OrderBy`, `Limit` and `Call` (on the outer builder, the nested builder being
another one).  Only `Execute` may shorten the buffer: the buffer after
`Execute` is a prefix of the buffer before it. -/
theorem buffer_append_only (qb nqb : QueryBuilder) (ps : List QueryPattern)
    (cs : List QueryConfig) (c : QueryConfig) (flag : Bool) (limit : Int) :
    qb.query <+: (qb.Match ps).query ∧
    qb.query <+: (qb.OptionlMath ps).query ∧
    qb.query <+: (qb.Merge ps).query ∧
    qb.query <+: (qb.Create ps).query ∧
    qb.query <+: (qb.Delete flag c).query ∧
    qb.query <+: (qb.Where cs).query ∧
    qb.query <+: (qb.Return cs).query ∧
    qb.query <+: (qb.Remove c).query ∧
    qb.query <+: (qb.Union flag).query ∧
    qb.query <+: (qb.With cs).query ∧
    qb.query <+: (qb.OrderBy c).query ∧
    qb.query <+: (qb.Limit limit).query ∧
    qb.query <+: (qb.Call nqb).1.query ∧
    qb.Execute.2.query <+: qb.query := by
  exact ⟨(matchClass_grows qb _ ps).1, (matchClass_grows qb _ ps).1,
    (matchClass_grows qb _ ps).1, (matchClass_grows qb _ ps).1, (Delete_grows qb flag c).1,
    (Where_grows qb cs).1, (Return_grows qb cs).1, (Remove_grows qb c).1,
    (Union_grows qb flag).1, (With_grows qb cs).1, (OrderBy_grows qb c).1,
    (Limit_grows qb limit).1, (Call_grows qb nqb).1, TrimSuffix_initial _ _⟩

end QueryBuilder

/-! ## Finalization, REMOVE and UNION in detail -/

theorem HasSuffix_append_of_true (p s suffix : GoString) (h : HasSuffix s suffix = true) :
    HasSuffix (p ++ s) suffix = true := by
  rw [HasSuffix_iff] at h ⊢
  obtain ⟨t, rfl⟩ := h
  exact ⟨p ++ t, by simp⟩

theorem eq_of_append_two {u v : GoString} {a b c d : Char} (h : u ++ [a, b] = v ++ [c, d]) :
    u = v ∧ a = c ∧ b = d := by
  have h2 := List.append_inj' h rfl
  simpa using h2

theorem HasSuffix_REMOVE (t : GoString) :
    HasSuffix ("REMOVE ".toList ++ t) ", ".toList = HasSuffix t ", ".toList := by
  cases h : HasSuffix t ", ".toList with
  | true => exact HasSuffix_append_of_true _ _ _ h
  | false =>
    cases h2 : HasSuffix ("REMOVE ".toList ++ t) ", ".toList with
    | false => rfl
    | true =>
      exfalso
      obtain ⟨v, hv⟩ := (HasSuffix_iff _ _).mp h2
      have hv2 : v ++ [',', ' '] = "REMOVE ".toList ++ t := hv
      rcases List.eq_nil_or_concat t with rfl | ⟨w, b, rfl⟩
      · have h3 : v ++ [',', ' '] = "REMOV".toList ++ ['E', ' '] := hv2
        have := (eq_of_append_two h3).2.1
        exact absurd this (by decide)
      · rcases List.eq_nil_or_concat w with rfl | ⟨x, a, rfl⟩
        · have h3 : v ++ [',', ' '] = "REMOVE".toList ++ [' ', b] := by
            rw [hv2]
            rfl
          have := (eq_of_append_two h3).2.1
          exact absurd this (by decide)
        · have h3 : v ++ [',', ' '] = ("REMOVE ".toList ++ x) ++ [a, b] := by
            rw [hv2]
            simp
          obtain ⟨_, ha, hb⟩ := eq_of_append_two h3
          have : HasSuffix ((x.concat a).concat b) ", ".toList = true := by
            rw [HasSuffix_iff]
            exact ⟨x, by simp [← ha, ← hb]⟩
          rw [this] at h
          exact absurd h (by simp)

theorem TrimSuffix_REMOVE (t : GoString) :
    TrimSuffix ("REMOVE ".toList ++ t) ", ".toList = "REMOVE ".toList ++ TrimSuffix t ", ".toList := by
  cases h : HasSuffix t ", ".toList with
  | true =>
    obtain ⟨u, rfl⟩ := (HasSuffix_iff _ _).mp h
    rw [← List.append_assoc, TrimSuffix_append, TrimSuffix_append]
  | false =>
    rw [TrimSuffix_of_not _ _ h, TrimSuffix_of_not]
    rw [HasSuffix_REMOVE, h]

namespace QueryBuilder

/-- C15: for every builder state with buffer `q`, `Execute` returns as text `q`
with exactly one trailing newline removed when `q` ends with a newline, and `q`
itself otherwise (at most one character is removed); it stores that same text
as the new buffer; the text does not depend on the recorded errors.  So
`Execute` on a buffer with no trailing line terminator returns the buffer and
leaves the state unchanged, and a second `Execute` on such a buffer returns the
same pair as the first. -/
theorem execute_trims_once (qb : QueryBuilder) :
    (HasSuffix qb.query "\n".toList = true → qb.query = qb.Execute.1.1 ++ "\n".toList) ∧
    (HasSuffix qb.query "\n".toList = false → qb.Execute.1.1 = qb.query) ∧
    qb.query.length ≤ qb.Execute.1.1.length + 1 ∧
    qb.Execute.2.query = qb.Execute.1.1 ∧
    (∀ errs : List GoError,
      (Execute { query := qb.query, errors := errs, calls := qb.calls }).1.1 = qb.Execute.1.1) ∧
    (HasSuffix qb.query "\n".toList = false →
      qb.Execute.1.1 = qb.query ∧ qb.Execute.2 = qb) ∧
    (HasSuffix qb.Execute.2.query "\n".toList = false →
      qb.Execute.2.Execute = (qb.Execute.1, qb.Execute.2)) := by
  have hyes : HasSuffix qb.query "\n".toList = true → qb.query = qb.Execute.1.1 ++ "\n".toList := by
    intro h1
    obtain ⟨t, ht⟩ := (HasSuffix_iff _ _).mp h1
    simp only [Execute]
    rw [← ht, TrimSuffix_append]
  have hno : ∀ q : QueryBuilder, HasSuffix q.query "\n".toList = false →
      q.Execute = ((q.query, q.errorBuild), q) := by
    intro q h1
    simp only [Execute, TrimSuffix_of_not _ _ h1]
  refine ⟨hyes, ?_, ?_, rfl, fun _ => rfl, ?_, ?_⟩
  · intro h1
    rw [hno qb h1]
  · cases h1 : HasSuffix qb.query "\n".toList with
    | true =>
      have h2 := congrArg List.length (hyes h1)
      simp at h2
      omega
    | false =>
      rw [hno qb h1]
      exact Nat.le_succ _
  · intro h1
    rw [hno qb h1]
    exact ⟨rfl, rfl⟩
  · intro h1
    rw [hno _ h1]
    rfl

/-- Witness of C15: on a buffer ending in one newline, `Execute` removes it and a
second `Execute` changes nothing, with or without recorded errors. -/
theorem execute_trims_once_witness :
    HasSuffix busy.query "\n".toList = true ∧
    busy.Execute.1.1 = "MATCH (n)".toList ∧
    "MATCH (n)\n".toList = busy.Execute.1.1 ++ "\n".toList ∧
    HasSuffix busy.Execute.2.query "\n".toList = false ∧
    busy.Execute.2.Execute = (busy.Execute.1, busy.Execute.2) :=
  have h1 : HasSuffix busy.query "\n".toList = true := by decide
  have h2 : HasSuffix busy.Execute.2.query "\n".toList = false := by decide
  ⟨h1, by decide, (execute_trims_once busy).1 h1, h2, (execute_trims_once busy).2.2.2.2.2.2 h2⟩

/-- C16, as the code has it: for every non-zero remove description whose render
succeeds with text `t`, `Remove` adds no error and appends `REMOVE `, then `t`
and a newline when `t` does not end with `", "`; when `t` ends with `", "`, that
one trailing `", "` is removed from `t` before the newline. -/
theorem remove_appends_text (qb : QueryBuilder) (c : RemoveConfig) (t : GoString)
    (hzero : c.isZero = false) (hok : c.ToString = (t, none)) :
    (qb.Remove c).errors = qb.errors ∧
    (HasSuffix t ", ".toList = false →
      (qb.Remove c).query = qb.query ++ ("REMOVE ".toList ++ t ++ "\n".toList)) ∧
    (∀ u, t = u ++ ", ".toList →
      (qb.Remove c).query = qb.query ++ ("REMOVE ".toList ++ u ++ "\n".toList)) := by
  rw [Remove_of_not_zero qb c hzero, TrimSuffix_REMOVE, hok]
  refine ⟨by simp [renderErrors], ?_, ?_⟩
  · intro h
    rw [TrimSuffix_of_not _ _ h]
  · rintro u rfl
    rw [TrimSuffix_append]

/-- Witness of C16 as amended: a description rendering `a` gives `REMOVE a` and a
newline; one rendering `n.prop, ` gives `REMOVE n.prop` and a newline. -/
theorem remove_appends_text_witness :
    cfgA.isZero = false ∧ cfgA.ToString = ("a".toList, none) ∧
    HasSuffix "a".toList ", ".toList = false ∧
    (busy.Remove cfgA).query = "MATCH (n)\nREMOVE a\n".toList ∧
    (busy.Remove cfgA).errors = [errorsNew "earlier".toList] ∧
    (busy.Remove cfgTrail).query = "MATCH (n)\nREMOVE n.prop\n".toList :=
  have h := remove_appends_text busy cfgA "a".toList rfl rfl
  have h2 := remove_appends_text busy cfgTrail "n.prop, ".toList rfl rfl
  ⟨rfl, rfl, by decide, h.2.1 (by decide), h.1, h2.2.2 "n.prop".toList (by decide)⟩

/-- C16 fails as stated: the remove description `cfgTrail` is not the zero value
and its render succeeds with the text `n.prop, `; `Remove` appends `REMOVE n.prop`
and a newline, not `REMOVE n.prop, ` and a newline: the trailing `", "` of the
rendered text is removed. -/
theorem remove_appends_text_counterexample :
    cfgTrail.isZero = false ∧ cfgTrail.ToString = ("n.prop, ".toList, none) ∧
    (NewQueryBuilder.Remove cfgTrail).query = "REMOVE n.prop\n".toList ∧
    (NewQueryBuilder.Remove cfgTrail).query ≠
      NewQueryBuilder.query ++ ("REMOVE ".toList ++ "n.prop, ".toList ++ "\n".toList) := by
  decide

/-- C17: on every builder state `Union(true)` appends exactly `UNION ALL` and a
newline, `Union(false)` appends exactly `UNION` and a newline, and in both cases
the error list is unchanged. -/
theorem union_appends_keyword (qb : QueryBuilder) :
    (qb.Union true).query = qb.query ++ "UNION ALL\n".toList ∧
    (qb.Union true).errors = qb.errors ∧
    (qb.Union false).query = qb.query ++ "UNION\n".toList ∧
    (qb.Union false).errors = qb.errors := by
  simp [Union, appendQuery]

/-- C18 at its failing input: `Remove` of the zero-value description records
`error empty where clause`, which names `Where` and not `Remove`; the guards of
`Delete`, `Where`, `Return`, `With` and `OrderBy` each record an error that names
their own clause and no other of the six. -/
theorem remove_guard_names_where :
    (NewQueryBuilder.Remove cfgZero).errors = [errorsNew "error empty where clause".toList] ∧
    clausesNamed "error empty where clause".toList = ["Where".toList] ∧
    containsFold "error empty where clause".toList "Remove".toList = false ∧
    ((NewQueryBuilder.Delete false cfgZero).errors =
        [errorsNew "error empty Delete clause".toList] ∧
      clausesNamed "error empty Delete clause".toList = ["Delete".toList]) ∧
    ((NewQueryBuilder.Where []).errors = [errorsNew "error empty Where clause".toList] ∧
      clausesNamed "error empty Where clause".toList = ["Where".toList]) ∧
    ((NewQueryBuilder.Return []).errors = [errorsNew "error empty Return clause".toList] ∧
      clausesNamed "error empty Return clause".toList = ["Return".toList]) ∧
    ((NewQueryBuilder.With []).errors = [errorsNew "error empty WITH clause".toList] ∧
      clausesNamed "error empty WITH clause".toList = ["With".toList]) ∧
    ((NewQueryBuilder.OrderBy cfgZero).errors =
        [errorsNew "error empty OrderBy clause".toList] ∧
      clausesNamed "error empty OrderBy clause".toList = ["OrderBy".toList]) := by
  decide

end QueryBuilder

/-! ## Invalid patterns -/

theorem patternError_isSome (p : QueryPattern) :
    (patternError p).isSome = InvalidPattern p := by
  unfold patternError InvalidPattern
  cases selected p <;> rfl

theorem length_filterMap_patternError (ps : List QueryPattern) :
    (ps.filterMap patternError).length = ps.countP InvalidPattern := by
  induction ps with
  | nil => rfl
  | cons p rest ih =>
    have h := patternError_isSome p
    cases hp : patternError p with
    | none =>
      rw [hp] at h
      simp [List.filterMap_cons, hp, List.countP_cons, ← h, ih]
    | some e =>
      rw [hp] at h
      simp [List.filterMap_cons, hp, List.countP_cons, ← h, ih]

theorem selected_of_zero (p : QueryPattern) (h1 : p.OnlyNode.isZero = true)
    (h2 : p.PartialRelationship.isZero = true) (h3 : p.FullRelationship.isZero = true) :
    selected p = none := by
  simp [selected, h1, h2, h3]

theorem unpopulated_patterns (ps : List QueryPattern)
    (h : ∀ p ∈ ps, p.OnlyNode.isZero = true ∧ p.PartialRelationship.isZero = true ∧
      p.FullRelationship.isZero = true) :
    (ps.map patternText).flatten = [] ∧
      ps.filterMap patternError =
        List.replicate ps.length (errorsNew "error match QueryPattern null".toList) := by
  induction ps with
  | nil => exact ⟨rfl, rfl⟩
  | cons p rest ih =>
    obtain ⟨h1, h2, h3⟩ := h p (List.mem_cons_self _ _)
    have hs := selected_of_zero p h1 h2 h3
    obtain ⟨ih1, ih2⟩ := ih fun q hq => h q (List.mem_cons_of_mem _ hq)
    have ht : patternText p = [] := by simp [patternText, hs]
    have he : patternError p = some (errorsNew "error match QueryPattern null".toList) := by
      simp [patternError, hs]
    refine ⟨?_, ?_⟩
    · rw [List.map_cons, List.flatten_cons, ht, ih1]
      rfl
    · rw [List.filterMap_cons, he, ih2]
      rfl

namespace QueryBuilder

/-- C19: a failing pattern does not suppress the clause.  For every non-empty
list of patterns, each MATCH-class call still appends keyword, one space, the
resolved texts concatenated in order and a newline, and appends the errors of
the invalid patterns in pattern order: exactly as many errors as there are
invalid patterns (no variant populated, or the render of the selected variant
fails).  In particular `Match` of `n ≥ 1` unpopulated patterns appends `MATCH `
and a newline, and `n` errors `error match QueryPattern null`. -/
theorem failing_pattern_keeps_clause (qb : QueryBuilder) (ps : List QueryPattern)
    (hne : ps ≠ []) :
    ((qb.Match ps).query =
        qb.query ++ ("MATCH".toList ++ " ".toList ++ (ps.map patternText).flatten ++ "\n".toList) ∧
      (qb.Match ps).errors = qb.errors ++ ps.filterMap patternError) ∧
    ((qb.OptionlMath ps).query =
        qb.query ++ ("OPTIONAL MATCH".toList ++ " ".toList ++ (ps.map patternText).flatten ++
          "\n".toList) ∧
      (qb.OptionlMath ps).errors = qb.errors ++ ps.filterMap patternError) ∧
    ((qb.Merge ps).query =
        qb.query ++ ("MERGE".toList ++ " ".toList ++ (ps.map patternText).flatten ++ "\n".toList) ∧
      (qb.Merge ps).errors = qb.errors ++ ps.filterMap patternError) ∧
    ((qb.Create ps).query =
        qb.query ++ ("CREATE".toList ++ " ".toList ++ (ps.map patternText).flatten ++ "\n".toList) ∧
      (qb.Create ps).errors = qb.errors ++ ps.filterMap patternError) ∧
    (ps.filterMap patternError).length = ps.countP InvalidPattern ∧
    ((∀ p ∈ ps, p.OnlyNode.isZero = true ∧ p.PartialRelationship.isZero = true ∧
        p.FullRelationship.isZero = true) →
      (qb.Match ps).query = qb.query ++ "MATCH \n".toList ∧
      (qb.Match ps).errors =
        qb.errors ++ List.replicate ps.length (errorsNew "error match QueryPattern null".toList)) := by
  refine ⟨?_, ?_, ?_, ?_, length_filterMap_patternError ps, ?_⟩
  · simp only [Match, queryPatternUsage_of_ne_nil qb _ ps hne, appendQuery, and_self]
  · simp only [OptionlMath, queryPatternUsage_of_ne_nil qb _ ps hne, appendQuery, and_self]
  · simp only [Merge, queryPatternUsage_of_ne_nil qb _ ps hne, appendQuery, and_self]
  · simp only [Create, queryPatternUsage_of_ne_nil qb _ ps hne, appendQuery, and_self]
  · intro h
    obtain ⟨h1, h2⟩ := unpopulated_patterns ps h
    simp only [Match, queryPatternUsage_of_ne_nil qb _ ps hne, appendQuery, h1, h2]
    exact ⟨rfl, trivial⟩

/-- Witness of C19: `Match` of the node `(n)`, an unpopulated pattern and a
pattern whose node render fails with the text `(bad)` appends `MATCH (n)(bad)`
and a newline and the two errors in pattern order; `Match` of two unpopulated
patterns appends `MATCH ` and a newline and two empty-pattern errors. -/
theorem failing_pattern_keeps_clause_witness :
    [patternNode, patternZero, patternBad] ≠ [] ∧
    [patternNode, patternZero, patternBad].countP InvalidPattern = 2 ∧
    (busy.Match [patternNode, patternZero, patternBad]).query =
      "MATCH (n)\nMATCH (n)(bad)\n".toList ∧
    (busy.Match [patternNode, patternZero, patternBad]).errors =
      [errorsNew "earlier".toList, errorsNew "error match QueryPattern null".toList,
        errorsNew "bad node".toList] ∧
    (busy.Match [patternZero, patternZero]).query = "MATCH (n)\nMATCH \n".toList ∧
    (busy.Match [patternZero, patternZero]).errors =
      [errorsNew "earlier".toList, errorsNew "error match QueryPattern null".toList,
        errorsNew "error match QueryPattern null".toList] :=
  have hne : [patternNode, patternZero, patternBad] ≠ [] := by simp
  have hne2 : [patternZero, patternZero] ≠ [] := by simp
  have h := failing_pattern_keeps_clause busy [patternNode, patternZero, patternBad] hne
  have h2 := (failing_pattern_keeps_clause busy [patternZero, patternZero] hne2).2.2.2.2.2
    (by decide)
  ⟨hne, by decide, h.1.1, h.1.2, h2.1, h2.2⟩

end QueryBuilder

/-! ## No two consecutive line terminators -/

theorem NoNewline_append {a b : GoString} : NoNewline (a ++ b) ↔ NoNewline a ∧ NoNewline b := by
  simp [NoNewline, List.mem_append, not_or]

theorem NoNewline_of_initial {s t : GoString} (h : s <+: t) (ht : NoNewline t) : NoNewline s :=
  fun hs => ht (h.subset hs)

theorem NoNewline_flatten {ts : List GoString} (h : ∀ t ∈ ts, NoNewline t) :
    NoNewline ts.flatten := by
  intro hmem
  obtain ⟨t, ht, hc⟩ := List.mem_flatten.mp hmem
  exact h t ht hc

theorem NoNewline_intercalate {sep : GoString} {ts : List GoString} (hsep : NoNewline sep)
    (h : ∀ t ∈ ts, NoNewline t) : NoNewline (sep.intercalate ts) := by
  by_cases hne : ts = []
  · subst hne
    simp [NoNewline, List.intercalate]
  · have hall : NoNewline (ts.map fun t => t ++ sep).flatten := by
      apply NoNewline_flatten
      intro u hu
      obtain ⟨t, ht, rfl⟩ := List.mem_map.mp hu
      exact NoNewline_append.mpr ⟨h t ht, hsep⟩
    rw [flatten_map_append_sep sep ts hne] at hall
    exact (NoNewline_append.mp hall).1

theorem digitChar_ne_newline (d : Nat) (hd : d < 10) : Nat.digitChar d ≠ '\n' := by
  interval_cases d <;> decide

theorem toDigitsCore_noNewline (fuel n : Nat) (ds : List Char) (h : NoNewline ds) :
    NoNewline (Nat.toDigitsCore 10 fuel n ds) := by
  induction fuel generalizing n ds with
  | zero => simpa [Nat.toDigitsCore] using h
  | succ k ih =>
    have hcons : NoNewline (Nat.digitChar (n % 10) :: ds) := by
      intro hm
      rcases List.mem_cons.mp hm with heq | hin
      · exact digitChar_ne_newline _ (Nat.mod_lt n (by decide)) heq.symm
      · exact h hin
    unfold Nat.toDigitsCore
    simp only
    split
    · exact hcons
    · exact ih _ _ hcons

theorem Itoa_noNewline (n : Int) : NoNewline (Itoa n) := by
  have h : NoNewline (Nat.toDigits 10 n.natAbs) :=
    toDigitsCore_noNewline _ _ [] (by simp [NoNewline])
  unfold Itoa
  split
  · intro hm
    rcases List.mem_cons.mp hm with heq | hin
    · exact absurd heq (by decide)
    · exact h hin
  · exact h

theorem noDouble_of_last (u : GoString) (c : Char) (hc : c ≠ '\n') :
    HasSuffix (u ++ [c, '\n']) "\n\n".toList = false := by
  cases h : HasSuffix (u ++ [c, '\n']) "\n\n".toList with
  | false => rfl
  | true =>
    obtain ⟨v, hv⟩ := (HasSuffix_iff _ _).mp h
    have hv2 : v ++ ['\n', '\n'] = u ++ [c, '\n'] := hv
    exact absurd (eq_of_append_two hv2).2.1.symm hc

theorem noDouble_append (q w : GoString) (hw : w ≠ []) (hn : NoNewline w) :
    HasSuffix (q ++ (w ++ "\n".toList)) "\n\n".toList = false := by
  rcases List.eq_nil_or_concat w with rfl | ⟨u, c, rfl⟩
  · exact absurd rfl hw
  · have hc : c ≠ '\n' := by
      intro h
      apply hn
      simp [h]
    have hshape : q ++ (u.concat c ++ "\n".toList) = (q ++ u) ++ [c, '\n'] := by simp
    rw [hshape]
    exact noDouble_of_last _ _ hc

theorem noTrailing_of_noDouble (q : GoString) (h : HasSuffix q "\n\n".toList = false) :
    HasSuffix (TrimSuffix q "\n".toList) "\n".toList = false := by
  cases h1 : HasSuffix q "\n".toList with
  | false => rw [TrimSuffix_of_not _ _ h1]; exact h1
  | true =>
    obtain ⟨t, ht⟩ := (HasSuffix_iff _ _).mp h1
    rw [← ht, TrimSuffix_append]
    cases h3 : HasSuffix t "\n".toList with
    | false => rfl
    | true =>
      obtain ⟨u, hu⟩ := (HasSuffix_iff _ _).mp h3
      have : HasSuffix q "\n\n".toList = true := by
        rw [HasSuffix_iff]
        exact ⟨u, by rw [← ht, ← hu]; simp⟩
      rw [this] at h
      exact absurd h (by simp)

theorem noDouble_of_noTrailing (q : GoString) (h : HasSuffix q "\n".toList = false) :
    HasSuffix q "\n\n".toList = false := by
  cases h2 : HasSuffix q "\n\n".toList with
  | false => rfl
  | true =>
    obtain ⟨u, hu⟩ := (HasSuffix_iff _ _).mp h2
    have : HasSuffix q "\n".toList = true := by
      rw [HasSuffix_iff]
      exact ⟨u ++ "\n".toList, by rw [← hu]; simp⟩
    rw [this] at h
    exact absurd h (by simp)

theorem TrimSuffix_ne_nil_of_length (s suffix : GoString) (h : suffix.length < s.length) :
    TrimSuffix s suffix ≠ [] := by
  unfold TrimSuffix
  split
  · intro hnil
    have := congrArg List.length hnil
    simp at this
    omega
  · intro hnil
    rw [hnil] at h
    simp at h

namespace QueryBuilder

theorem matchClass_noDouble (qb : QueryBuilder) (clause : GoString) (ps : List QueryPattern)
    (hclause : NoNewline clause) (hqb : HasSuffix qb.query "\n\n".toList = false)
    (hps : ∀ p ∈ ps, NoNewline (patternText p)) :
    HasSuffix ((qb.queryPatternUsage clause ps).2.appendQuery
      (qb.queryPatternUsage clause ps).1).query "\n\n".toList = false := by
  by_cases h : ps = []
  · subst h
    rw [queryPatternUsage_nil]
    simpa [appendQuery] using hqb
  · rw [queryPatternUsage_of_ne_nil qb clause ps h]
    apply noDouble_append
    · simp
    · refine NoNewline_append.mpr ⟨NoNewline_append.mpr ⟨hclause, by decide⟩, ?_⟩
      apply NoNewline_flatten
      intro t ht
      obtain ⟨p, hp, rfl⟩ := List.mem_map.mp ht
      exact hps p hp

theorem texts_noNewline {cs : List QueryConfig} (h : ∀ c ∈ cs, NoNewline c.ToString.1) :
    ∀ t ∈ cs.map (fun c => c.ToString.1), NoNewline t := by
  intro t ht
  obtain ⟨c, hc, rfl⟩ := List.mem_map.mp ht
  exact h c hc

theorem Reachable_noDouble {qb : QueryBuilder} (h : Reachable qb) :
    HasSuffix qb.query "\n\n".toList = false := by
  induction h with
  | new => decide
  | Match ps _ hps ih => exact matchClass_noDouble _ _ ps (by decide) ih hps
  | OptionlMath ps _ hps ih => exact matchClass_noDouble _ _ ps (by decide) ih hps
  | Merge ps _ hps ih => exact matchClass_noDouble _ _ ps (by decide) ih hps
  | Create ps _ hps ih => exact matchClass_noDouble _ _ ps (by decide) ih hps
  | @Delete qb d c _ hc ih =>
    cases hz : c.isZero with
    | true => simpa [Delete, hz, addError_eq] using ih
    | false =>
      rw [Delete_of_not_zero qb d c hz]
      apply noDouble_append
      · cases d <;> simp
      · refine NoNewline_append.mpr ⟨?_, hc⟩
        cases d <;> decide
  | @Where qb cs _ hcs ih =>
    by_cases hne : cs = []
    · subst hne
      simpa [Where, addError_eq] using ih
    · rw [Where_of_ne_nil qb cs hne]
      apply noDouble_append
      · simp
      · exact NoNewline_append.mpr ⟨by decide, NoNewline_flatten (texts_noNewline hcs)⟩
  | @Return qb cs _ hcs ih =>
    by_cases hne : cs = []
    · subst hne
      simpa [Return, addError_eq] using ih
    · rw [Return_of_ne_nil qb cs hne]
      apply noDouble_append
      · simp
      · exact NoNewline_append.mpr
          ⟨by decide, NoNewline_intercalate (by decide) (texts_noNewline hcs)⟩
  | @Remove qb c _ hc ih =>
    cases hz : c.isZero with
    | true => simpa [Remove, hz, addError_eq] using ih
    | false =>
      rw [Remove_of_not_zero qb c hz]
      apply noDouble_append
      · apply TrimSuffix_ne_nil_of_length
        simp
      · exact NoNewline_of_initial (TrimSuffix_initial _ _)
          (NoNewline_append.mpr ⟨by decide, hc⟩)
  | @Union qb all _ ih =>
    cases all
    · exact noDouble_append qb.query "UNION".toList (by simp) (by decide)
    · exact noDouble_append qb.query "UNION ALL".toList (by simp) (by decide)
  | @With qb cs _ hcs ih =>
    by_cases hne : cs = []
    · subst hne
      simpa [With, addError_eq] using ih
    · rw [With_of_ne_nil qb cs hne]
      apply noDouble_append
      · simp
      · exact NoNewline_append.mpr
          ⟨by decide, NoNewline_intercalate (by decide) (texts_noNewline hcs)⟩
  | @OrderBy qb c _ hc ih =>
    cases hz : c.isZero with
    | true => simpa [OrderBy, hz, addError_eq] using ih
    | false =>
      rw [OrderBy_of_not_zero qb c hz]
      apply noDouble_append
      · simp
      · exact NoNewline_append.mpr ⟨by decide, hc⟩
  | @Limit qb limit _ ih =>
    have hshape : (qb.Limit limit).query =
        qb.query ++ (("LIMIT ".toList ++ Itoa limit) ++ "\n".toList) := by
      simp [Limit, appendQuery]
    rw [hshape]
    apply noDouble_append
    · simp
    · exact NoNewline_append.mpr ⟨by decide, Itoa_noNewline limit⟩
  | @CallOuter qb nqb _ _ ih _ =>
    rw [Call_outer]
    have hshape : ∀ x : GoString,
        qb.query ++ ("CALL \x7b\n".toList ++ ("  ".toList ++ x ++ "\n\x7d\n".toList)) =
          (qb.query ++ ("CALL \x7b\n".toList ++ ("  ".toList ++ x ++ "\n".toList))) ++
            ['\x7d', '\n'] := by
      intro x
      simp
    simp only [hshape]
    exact noDouble_of_last _ _ (by decide)
  | @CallNested qb nqb _ _ _ ih =>
    rw [Call_nested]
    exact noDouble_of_noTrailing _ (noTrailing_of_noDouble _ ih)
  | Execute _ ih => exact noDouble_of_noTrailing _ (noTrailing_of_noDouble _ ih)

end QueryBuilder

/-! ## Reachable states -/

namespace QueryBuilder

/-- C20: if no render collaborator returns a text containing a line terminator,
then in every state reachable from `NewQueryBuilder()` by the public operations
(the clause methods, `Call` with a nested builder reachable the same way, and
`Execute`) the buffer does not end with two consecutive newlines, and so
`Execute` on a reachable state returns a text with no trailing line
terminator. -/
theorem reachable_no_double_newline (qb : QueryBuilder) (h : Reachable qb) :
    HasSuffix qb.query "\n\n".toList = false ∧
    HasSuffix qb.Execute.1.1 "\n".toList = false :=
  ⟨Reachable_noDouble h, noTrailing_of_noDouble _ (Reachable_noDouble h)⟩

/-- Witness of C20: the state after `Match`, `Return`, `Limit` and `Call` of a nested
builder is reachable, and `Execute` returns its text without the last newline. -/
theorem reachable_no_double_newline_witness :
    Reachable sampleChain ∧
    sampleChain.Execute.1.1 =
      "MATCH (n)\nRETURN a, b\nLIMIT 5\nCALL \x7b\n  RETURN c\n\x7d".toList ∧
    HasSuffix sampleChain.query "\n\n".toList = false ∧
    HasSuffix sampleChain.Execute.1.1 "\n".toList = false :=
  have hr : Reachable sampleChain :=
    Reachable.CallOuter
      (Reachable.Limit 5
        (Reachable.Return [cfgA, cfgB]
          (Reachable.Match [patternNode] Reachable.new (by decide)) (by decide)))
      (Reachable.Return [cfgC] Reachable.new (by decide))
  ⟨hr, by decide, reachable_no_double_newline sampleChain hr⟩

end QueryBuilder

/-! ## The loop of `Call` on bytes -/

theorem DecodeRune_EncodeRune (r : Nat) (hr : r < 0xD800 ∨ (0xDFFF < r ∧ r < 0x110000))
    (rest : List Nat) :
    DecodeRune (EncodeRune r ++ rest) = (r, (EncodeRune r).length) := by
  unfold EncodeRune
  by_cases h1 : r ≤ 0x7F
  · rw [if_pos h1]
    simp only [List.cons_append, List.nil_append, DecodeRune, List.length_singleton]
    rw [if_pos (by omega)]
  · rw [if_neg h1]
    by_cases h2 : r ≤ 0x7FF
    · rw [if_pos h2]
      simp only [List.cons_append, List.nil_append, DecodeRune]
      rw [if_neg (by omega), if_neg (by omega), if_pos (by omega), if_neg (by omega)]
      simp only [List.length_cons, List.length_nil, Prod.mk.injEq, and_true]
      omega
    · rw [if_neg h2, if_neg (by omega)]
      by_cases h3 : r ≤ 0xFFFF
      · rw [if_pos h3]
        simp only [List.cons_append, List.nil_append, DecodeRune]
        rw [if_neg (by omega), if_neg (by omega), if_neg (by omega), if_pos (by omega)]
        by_cases he0 : 0xE0 + r / 4096 = 0xE0
        · rw [if_pos he0]
          by_cases hed : 0xE0 + r / 4096 = 0xED
          · omega
          · rw [if_neg hed, if_neg (by omega), if_neg (by omega)]
            simp only [List.length_cons, List.length_nil, Prod.mk.injEq, and_true]
            omega
        · rw [if_neg he0]
          by_cases hed : 0xE0 + r / 4096 = 0xED
          · rw [if_pos hed, if_neg (by omega), if_neg (by omega)]
            simp only [List.length_cons, List.length_nil, Prod.mk.injEq, and_true]
            omega
          · rw [if_neg hed, if_neg (by omega), if_neg (by omega)]
            simp only [List.length_cons, List.length_nil, Prod.mk.injEq, and_true]
            omega
      · rw [if_neg h3]
        simp only [List.cons_append, List.nil_append, DecodeRune]
        rw [if_neg (by omega), if_neg (by omega), if_neg (by omega), if_neg (by omega),
          if_pos (by omega)]
        by_cases hf0 : 0xF0 + r / 262144 = 0xF0
        · rw [if_pos hf0]
          by_cases hf4 : 0xF0 + r / 262144 = 0xF4
          · omega
          · rw [if_neg hf4, if_neg (by omega), if_neg (by omega), if_neg (by omega)]
            simp only [List.length_cons, List.length_nil, Prod.mk.injEq, and_true]
            omega
        · rw [if_neg hf0]
          by_cases hf4 : 0xF0 + r / 262144 = 0xF4
          · rw [if_pos hf4, if_neg (by omega), if_neg (by omega), if_neg (by omega)]
            simp only [List.length_cons, List.length_nil, Prod.mk.injEq, and_true]
            omega
          · rw [if_neg hf4, if_neg (by omega), if_neg (by omega), if_neg (by omega)]
            simp only [List.length_cons, List.length_nil, Prod.mk.injEq, and_true]
            omega

theorem Char_toNat_valid (c : Char) :
    c.toNat < 0xD800 ∨ (0xDFFF < c.toNat ∧ c.toNat < 0x110000) :=
  c.valid

theorem EncodeRune_length (c : Char) : (EncodeRune c.toNat).length = c.utf8Size := by
  have hv := Char_toNat_valid c
  unfold EncodeRune Char.utf8Size
  have hc : c.val.toBitVec.toNat = c.toNat := rfl
  simp only [UInt32.le_def, BitVec.le_def, hc]
  have e1 : (UInt32.ofNatCore 127 Char.utf8Size.proof_1).toBitVec.toNat = 127 := rfl
  have e2 : (UInt32.ofNatCore 2047 Char.utf8Size.proof_2).toBitVec.toNat = 2047 := rfl
  have e3 : (UInt32.ofNatCore 65535 Char.utf8Size.proof_3).toBitVec.toNat = 65535 := rfl
  rw [e1, e2, e3]
  by_cases h1 : c.toNat ≤ 127
  · simp [h1]
  · by_cases h2 : c.toNat ≤ 2047
    · simp [h1, h2]
    · by_cases h3 : c.toNat ≤ 65535
      · rw [if_neg h1, if_neg h2, if_neg (by omega), if_pos h3, if_neg h1, if_neg h2, if_pos h3]
        rfl
      · rw [if_neg h1, if_neg h2, if_neg (by omega), if_neg h3, if_neg h1, if_neg h2, if_neg h3]
        rfl

theorem utf8_append (a b : GoString) : utf8 (a ++ b) = utf8 a ++ utf8 b := by
  simp [utf8, List.flatMap_append]

theorem utf8_cons (c : Char) (t : GoString) : utf8 (c :: t) = EncodeRune c.toNat ++ utf8 t := by
  simp [utf8, List.flatMap_cons]

theorem utf8_singleton (c : Char) : utf8 [c] = EncodeRune c.toNat := by
  simp [utf8]

theorem len_eq_length_utf8 (t : GoString) : len t = (utf8 t).length := by
  induction t with
  | nil => rfl
  | cons c t ih =>
    rw [utf8_cons, List.length_append, EncodeRune_length, ← ih]
    simp [len]

theorem CallLoopBytes_skip (n : Nat) (bs rest : List Nat) (i : Nat) (buffer : List Nat) :
    CallLoopBytes n (bs ++ rest) bs.length i buffer =
      CallLoopBytes n rest 0 (i + bs.length) buffer := by
  induction bs generalizing i with
  | nil => rfl
  | cons b bs ih =>
    rw [List.cons_append, List.length_cons, CallLoopBytes, ih]
    congr 1
    omega

theorem toNat_eq_newline (c : Char) : c.toNat = 0x0A ↔ c = '\n' := by
  constructor
  · intro h
    apply Char.ext
    apply UInt32.ext
    exact h
  · rintro rfl
    rfl

theorem CallLoopBytes_utf8 (n : Nat) (rest : GoString) (i : Nat) (buffer : GoString) :
    CallLoopBytes n (utf8 rest) 0 i (utf8 buffer) =
      utf8 (QueryBuilder.CallLoop n rest i buffer) := by
  induction rest generalizing i buffer with
  | nil => rfl
  | cons c rest ih =>
    have hdec := DecodeRune_EncodeRune c.toNat (Char_toNat_valid c) (utf8 rest)
    have hlen := EncodeRune_length c
    have hpos := c.utf8Size_pos
    rw [utf8_cons]
    cases hE : EncodeRune c.toNat with
    | nil =>
      rw [hE] at hlen
      simp at hlen
      omega
    | cons b0 bs =>
      rw [hE] at hdec hlen
      rw [List.cons_append, CallLoopBytes, ← List.cons_append, hdec]
      simp only [List.length_cons, Nat.add_sub_cancel]
      rw [CallLoopBytes_skip, QueryBuilder.CallLoop]
      have hidx : i + 1 + bs.length = i + c.utf8Size := by
        simp at hlen
        omega
      rw [hidx, ← ih]
      congr 1
      by_cases hc : c = '\n'
      · subst hc
        by_cases hi : (i : Int) ≠ (n : Int) - 1
        · simp [hi, utf8_append, ← hE]
          rfl
        · simp [hi, utf8_append, ← hE]
          rfl
      · have hc2 : ¬ c.toNat = 0x0A := fun h => hc ((toNat_eq_newline c).mp h)
        simp [hc, hc2, utf8_append, utf8_singleton, hE]

/-! ## `Call` on pointers -/

namespace Store

theorem Call_apply (s : Store) (qb nqb p : Ptr) :
    (s.Call qb nqb) p =
      if p = qb then
        (((s.set nqb (s nqb).Execute.2) qb).addErrorIfAny (s nqb).Execute.1.2).appendQuery
          ("CALL \x7b\n".toList ++ ("  ".toList ++
            QueryBuilder.CallLoop (len (s nqb).Execute.1.1) (s nqb).Execute.1.1 0 [] ++
            "\n\x7d\n".toList))
      else if p = nqb then (s nqb).Execute.2
      else s p := by
  unfold Call
  by_cases h1 : p = qb
  · subst h1
    simp [set]
  · by_cases h2 : p = nqb
    · subst h2
      simp [set, h1]
    · simp [set, h1, h2]

theorem Call_outer_of_ne (s : Store) (qb nqb : Ptr) (h : qb ≠ nqb) :
    (s.Call qb nqb) qb = (QueryBuilder.Call (s qb) (s nqb)).1 := by
  rw [Call_apply]
  simp [set, h, QueryBuilder.Call]

theorem Call_self (s : Store) (qb : Ptr) :
    (s.Call qb qb) qb = (QueryBuilder.Call (s qb).Execute.2 (s qb)).1 := by
  rw [Call_apply]
  simp [set, QueryBuilder.Call]

end Store

/-! ## `Call`: the block, and the error lists of both builders -/

namespace Store

/-- C6, as the code has it: for every nested builder that is not the outer
builder itself and whose finalized text `t` is valid UTF-8 and does not end
with a line terminator, with `l1 .. lk` the lines of `t` (`t` split on the
newline), `Call` appends to the outer buffer exactly `CALL {` and a newline,
then every line `li` with two leading spaces and a newline, in order, then `}`
and a newline.  On the UTF-8 bytes of such a `t` the loop of `Call`, decoding
and writing rune by rune, writes exactly the bytes of these lines. -/
theorem call_indents_lines (s : Store) (qb nqb : Ptr) (hne : qb ≠ nqb)
    (hend : HasSuffix (s nqb).Execute.1.1 "\n".toList = false) :
    ((s.Call qb nqb) qb).query =
      (s qb).query ++ ("CALL \x7b\n".toList ++
        (((s nqb).Execute.1.1.splitOn '\n').map fun l =>
          "  ".toList ++ l ++ "\n".toList).flatten ++
        "\x7d\n".toList) ∧
    utf8 "  ".toList ++
        CallLoopBytes (utf8 (s nqb).Execute.1.1).length (utf8 (s nqb).Execute.1.1) 0 0 [] ++
        utf8 "\n".toList =
      utf8 (((s nqb).Execute.1.1.splitOn '\n').map fun l =>
        "  ".toList ++ l ++ "\n".toList).flatten := by
  refine ⟨?_, ?_⟩
  · rw [Call_outer_of_ne s qb nqb hne]
    exact QueryBuilder.Call_lines (s qb) (s nqb) hend
  · have hlast : (s nqb).Execute.1.1.getLast? ≠ some '\n' := by
      intro h
      have := (HasSuffix_singleton (s nqb).Execute.1.1 '\n').mpr h
      rw [show "\n".toList = ['\n'] from rfl] at hend
      rw [this] at hend
      exact absurd hend (by simp)
    have hbytes := CallLoopBytes_utf8 (len (s nqb).Execute.1.1) (s nqb).Execute.1.1 0 []
    rw [len_eq_length_utf8, show utf8 [] = [] from rfl] at hbytes
    rw [hbytes, ← len_eq_length_utf8, CallLoop_eq _ _ 0 [] (by simp) hlast, List.nil_append,
      ← utf8_append, ← utf8_append, indented_lines _ (splitOn_ne_nil _ _)]

/-- Witness of C6 as amended: with the outer and the nested builder at different
addresses, the nested text `MATCH (n)`, newline, `RETURN n` gives `CALL {`,
`  MATCH (n)`, `  RETURN n`, `}`, each followed by a newline, after the outer
buffer. -/
theorem call_indents_lines_witness :
    (0 : Ptr) ≠ 1 ∧
    (outerAndNested 1).Execute.1.1 = "MATCH (n)\nRETURN n".toList ∧
    HasSuffix (outerAndNested 1).Execute.1.1 "\n".toList = false ∧
    ((outerAndNested.Call 0 1) 0).query =
      "MATCH (n)\nCALL \x7b\n  MATCH (n)\n  RETURN n\n\x7d\n".toList :=
  have hne : (0 : Ptr) ≠ 1 := by decide
  have hend : HasSuffix (outerAndNested 1).Execute.1.1 "\n".toList = false := by decide
  ⟨hne, by decide, hend, (call_indents_lines outerAndNested 0 1 hne hend).1.trans (by decide)⟩

/-- C6 fails as stated, on two inputs.  When the nested builder is the outer
builder itself, with buffer `MATCH (n)` and a newline, its finalized text
`MATCH (n)` has no trailing newline, yet the buffer after `Call` is
`MATCH (n)CALL {` .., which is not the old buffer followed by the block: the
newline of the old buffer is gone.  When the nested text is the single byte
`0xFF`, which is not valid UTF-8 and is not a newline, the loop writes the three
bytes of U+FFFD instead of the line. -/
theorem call_indents_lines_counterexample :
    (oneBuilder 0).query = "MATCH (n)\n".toList ∧
    (oneBuilder 0).Execute.1.1 = "MATCH (n)".toList ∧
    HasSuffix (oneBuilder 0).Execute.1.1 "\n".toList = false ∧
    ((oneBuilder.Call 0 0) 0).query = "MATCH (n)CALL \x7b\n  MATCH (n)\n\x7d\n".toList ∧
    ((oneBuilder.Call 0 0) 0).query ≠
      (oneBuilder 0).query ++ ("CALL \x7b\n".toList ++
        (((oneBuilder 0).Execute.1.1.splitOn '\n').map fun l =>
          "  ".toList ++ l ++ "\n".toList).flatten ++
        "\x7d\n".toList) ∧
    CallLoopBytes 1 [0xFF] 0 0 [] = [0xEF, 0xBF, 0xBD] ∧
    CallLoopBytes 1 [0xFF] 0 0 [] ≠ [0xFF] := by
  decide

end Store

namespace QueryBuilder

end QueryBuilder

end Cypher
